import Mathlib

/-!
Selection-to-reveal pricing flow of `scripts/user.js`

A shallow embedding of the user-facing pricing flow: `generateFinalPrice`
(validation of the checked sales options), `startMultiplierAnimation` (its promise chain
and `catch` callback), `populateMultipliersListForAnimation`,
`animateToSelectedMultiplier` (the interval callback and the settle timeout) and
`displayResults`; and of the validation of `saveMultipliers` in the admin panel.

Conventions of the embedding.
* Multiplier values arrive through `response.json()`; they are finite JSON numbers, on
  which `===` is equality of the denoted value.  They are modelled by `ℚ`.
* The page (module-level variables and the DOM nodes the functions touch) is an explicit
  record that every function takes and returns.
* A `setInterval` callback is one `tick`; the pending `setTimeout` is one `settleTimeout`.
* An exception that escapes a callback is appended to `Flow.uncaught`; an exception that
  escapes `generateFinalPrice` is its `Completion.threw`.
* `parseInt` is modelled on the characters of its argument; the Number it returns is an
  integer-valued double, `NaN` or an infinity (`JSNumber`), with the rounding of integers
  above `2 ^ 53` made explicit (`toDouble`).
* The theorems on `Flow` are about one flow: no second call of
  `startMultiplierAnimation` replaces `multipliers` or the list while it runs. Several
  flows on one page are a `System`, whose `step` takes one event of the event loop: a
  trigger, the completion or failure of a fetch, the firing of a timer.
* The cells of the multipliers table are the Numbers `parseFloat` returns: doubles, held
  as whole numbers of units of `2 ^ -1074`, so that the rounding of every `+` is explicit
  (`roundRatio`, `Double.add`).
-/

namespace UserJs

/-! ## Data model -/

/-- One element of the module-level `multipliers` array, as built by the `map` in
`startMultiplierAnimation`; `probability` is `settings.probabilities[index]`, which is
`undefined` (here `none`) when that array is shorter. -/
structure MultiplierEntry where
  multiplier : ℚ
  probability : Option ℚ
deriving DecidableEq

/-- The object returned by the `generateFinalPrices` action, restricted to the two fields
the script reads. -/
structure DrawResult where
  selectedMultiplier : ℚ
  totalFinalPrice : ℚ
deriving DecidableEq

/-- The value of `element.style.display`: never assigned, `'block'` or `'none'`. -/
inductive Display where
  | unset
  | block
  | hidden
deriving DecidableEq

/-- One `div.multiplier-item` child of `#multipliersList`: the multiplier it shows
(`x${multiplier}`) and whether its class list holds `'active'`. -/
structure MultiplierItem where
  shown : ℚ
  active : Bool
deriving DecidableEq

/-! ## JavaScript numbers produced by `parseInt` -/

/-- The Number values `parseInt` can return: `NaN`, an integer-valued double, or an
infinity (digit strings beyond the double range). `-0` and `+0` are both `finite 0`;
the script never distinguishes them. -/
inductive JSNumber where
  | nan
  | finite (value : Int)
  | infinity (negative : Bool)
deriving DecidableEq

/-- Exceptions the modelled code can raise. `typeError` is the property read on
`undefined`/`null`; `invalidQuantity n` is
`new Error("Invalid quantity for option n.")`. -/
inductive JSError where
  | typeError
  | invalidQuantity (optionNumber : JSNumber)
deriving DecidableEq

/-- Calls of `alert`, by message template. -/
inductive Alert where
  | selectAtLeastOne
  | invalidQuantity (optionNumber : JSNumber)
  | generatingFailed
deriving DecidableEq

/-- One element of the `selectedOptions` array sent to `generateFinalPrices`. -/
structure Selection where
  optionNumber : JSNumber
  quantity : JSNumber
deriving DecidableEq

/-- Requests issued with `fetch` by the pricing flow. -/
inductive Fetch where
  | getMultipliers
  | generateFinalPrices (selectedOptions : List Selection)
deriving DecidableEq

/-- The module-level variables and the DOM state read or written by the pricing flow. -/
structure Page where
  /-- module-level `multipliers` -/
  multipliers : List MultiplierEntry
  /-- module-level `selectedMultiplier` (`null` is `none`) -/
  selectedMultiplier : Option ℚ
  /-- children of `#multipliersList` with class `multiplier-item`, in document order -/
  items : List MultiplierItem
  /-- display style of `#animationSection` -/
  animationSection : Display
  /-- display style of `#resultSection` -/
  resultSection : Display
  /-- number last written to `#totalFinalPrice` by `displayResults` -/
  totalFinalPrice : Option ℚ
  /-- every `alert` raised so far, oldest first -/
  alerts : List Alert
  /-- every `console.error` call so far (the script has no other console call) -/
  console : List String
  /-- every `fetch` issued so far, oldest first -/
  fetches : List Fetch
deriving DecidableEq

/-- The page as loaded: `multipliers = []`, `selectedMultiplier = null`, nothing shown. -/
def Page.initial : Page :=
  { multipliers := [], selectedMultiplier := none, items := [],
    animationSection := .unset, resultSection := .unset, totalFinalPrice := none,
    alerts := [], console := [], fetches := [] }

/-! ## The reveal animation -/

/-- The scan of `Array.prototype.findIndex` from position `i`: the index of the first
element satisfying `p`, or `-1`. -/
def findIndexFrom {α : Type} (p : α → Bool) : List α → Nat → Int
  | [], _ => -1
  | x :: xs, i => if p x then (i : Int) else findIndexFrom p xs (i + 1)

/-- The call `xs.findIndex(p)`. -/
def findIndex {α : Type} (p : α → Bool) (xs : List α) : Int :=
  findIndexFrom p xs 0

/-- The loop `for (let item of multiplierItems) item.classList.remove('active')`. -/
def removeActive (items : List MultiplierItem) : List MultiplierItem :=
  items.map fun it => { it with active := false }

/-- The call `multiplierItems[i].classList.add('active')` on an index in range. -/
def addActive : List MultiplierItem → Nat → List MultiplierItem
  | [], _ => []
  | it :: rest, 0 => { it with active := true } :: rest
  | it :: rest, i + 1 => it :: addActive rest i

/-- The function `populateMultipliersListForAnimation`: the list is emptied and receives one
`div.multiplier-item` per entry, none of them active. -/
def populateMultipliersListForAnimation (p : Page) (multipliersData : List MultiplierEntry) :
    Page :=
  { p with items := multipliersData.map fun m => { shown := m.multiplier, active := false } }

/-- The function `displayResults`: the total is written and the result section shown.
The total is kept as the number; `toFixed(2)` only formats it. -/
def displayResults (p : Page) (result : DrawResult) : Page :=
  { p with totalFinalPrice := some result.totalFinalPrice, resultSection := .block }

/-- The constant `maxCycles = 5`. -/
def maxCycles : Nat := 5

/-- The variables captured by the closures of one call of `animateToSelectedMultiplier`.
`currentIndex = none` stands for `NaN`, the value of `(currentIndex + 1) % 0`. -/
structure Ticker where
  selectedMultiplier : ℚ
  result : DrawResult
  totalItems : Nat
  currentIndex : Option Nat
  cycles : Nat
  /-- the interval has been set and not cleared -/
  interval : Bool
  /-- the 1000 ms timeout has been set and has not fired -/
  timeout : Bool
deriving DecidableEq

/-- One pricing flow in its animation: the page, the closure variables of the animation,
the exceptions that escaped its callbacks, and a record of the `classList.add('active')`
calls made while cycling (line 202) and when settling (line 222). -/
structure Flow where
  page : Page
  ticker : Ticker
  uncaught : List JSError
  cycled : List Nat
  settled : List Nat
deriving DecidableEq

/-- The body of `animateToSelectedMultiplier` up to and including `setInterval`. -/
def animateToSelectedMultiplier (p : Page) (selectedMultiplier : ℚ) (result : DrawResult) :
    Flow :=
  { page := p,
    ticker :=
      { selectedMultiplier := selectedMultiplier, result := result,
        totalItems := p.items.length, currentIndex := some 0, cycles := 0,
        interval := true, timeout := false },
    uncaught := [], cycled := [], settled := [] }

/-- The expression `(currentIndex + 1) % totalItems`; `NaN` when `totalItems` is `0`. -/
def nextIndex (currentIndex totalItems : Nat) : Option Nat :=
  if totalItems = 0 then none else some ((currentIndex + 1) % totalItems)

/-- The block run once `cycles >= maxCycles`: the interval is cleared, the index of the
selected multiplier is looked up in the module-level `multipliers` (falling back to `0`),
every highlight is removed and that one item is highlighted; then the timeout is set.
`items` is the list as the cycling part of the same callback left it. -/
def settle (s : Flow) (items : List MultiplierItem) (t : Ticker) (cycled : List Nat) : Flow :=
  let found := findIndex (fun m => decide (m.multiplier = t.selectedMultiplier))
    s.page.multipliers
  let selectedIndex := if found = -1 then 0 else found
  let cleared := removeActive items
  if selectedIndex.toNat < cleared.length then
    { s with
      page := { s.page with items := addActive cleared selectedIndex.toNat },
      ticker := { t with interval := false, timeout := true },
      cycled := cycled,
      settled := s.settled ++ [selectedIndex.toNat] }
  else
    { s with
      page := { s.page with items := cleared },
      ticker := { t with interval := false },
      cycled := cycled,
      uncaught := s.uncaught ++ [JSError.typeError] }

/-- One run of the `setInterval` callback. Nothing happens once the interval is cleared.
Reading `multiplierItems[currentIndex]` outside the list gives `undefined`, and
`.classList` on it throws out of the callback, leaving the interval running. -/
def tick (s : Flow) : Flow :=
  if s.ticker.interval then
    let cleared := removeActive s.page.items
    match s.ticker.currentIndex with
    | none =>
      { s with page := { s.page with items := cleared },
               uncaught := s.uncaught ++ [JSError.typeError] }
    | some i =>
      if i < cleared.length then
        let items := addActive cleared i
        let next := nextIndex i s.ticker.totalItems
        let cycles := if next = some 0 then s.ticker.cycles + 1 else s.ticker.cycles
        let t := { s.ticker with currentIndex := next, cycles := cycles }
        let cycled := s.cycled ++ [i]
        if maxCycles ≤ cycles then
          settle s items t cycled
        else
          { s with page := { s.page with items := items }, ticker := t, cycled := cycled }
      else
        { s with page := { s.page with items := cleared },
                 uncaught := s.uncaught ++ [JSError.typeError] }
  else s

/-- The `setTimeout` callback set by the settle block: the animation section is hidden
and `displayResults(result)` runs. -/
def settleTimeout (s : Flow) : Flow :=
  if s.ticker.timeout then
    { s with
      page := displayResults { s.page with animationSection := .hidden } s.ticker.result,
      ticker := { s.ticker with timeout := false } }
  else s

/-- The state after `k` firings of the interval. -/
def ticks : Nat → Flow → Flow
  | 0, s => s
  | k + 1, s => ticks k (tick s)

/-- The page on which the second `then` callback of `startMultiplierAnimation` starts the
animation: `generateFinalPrice` has shown the animation section and hidden the result
section, the first callback has stored `ms` in `multipliers` and populated the list, and
the second has stored `result.selectedMultiplier`. -/
def animationPage (p : Page) (ms : List MultiplierEntry) (result : DrawResult) : Page :=
  { populateMultipliersListForAnimation
      { p with animationSection := .block, resultSection := .hidden, multipliers := ms } ms
    with selectedMultiplier := some result.selectedMultiplier }

/-- The flow right after `animateToSelectedMultiplier(selectedMultiplier, result, _)` is
called by `startMultiplierAnimation`, before the first tick. -/
def startAnimation (p : Page) (ms : List MultiplierEntry) (result : DrawResult) : Flow :=
  animateToSelectedMultiplier (animationPage p ms result) result.selectedMultiplier result

/-- The multiplier set of the scenario in the specification. -/
def scenarioSet : List MultiplierEntry :=
  [⟨1, some 50⟩, ⟨2, some 30⟩, ⟨3, some 20⟩]

/-- The index the settle block highlights: `findIndex`, with `-1` replaced by `0`. -/
def settleIndex (ms : List MultiplierEntry) (selectedMultiplier : ℚ) : Nat :=
  let found := findIndex (fun m => decide (m.multiplier = selectedMultiplier)) ms
  (if found = -1 then 0 else found).toNat

/-- The items `populateMultipliersListForAnimation` creates for `ms`. -/
def freshItems (ms : List MultiplierEntry) : List MultiplierItem :=
  ms.map fun m => { shown := m.multiplier, active := false }

/-- The item list after `k` cycling ticks over `ms`: untouched before the first tick,
afterwards only item `(k - 1) % ms.length` is active. -/
def cyclingItems (ms : List MultiplierEntry) (k : Nat) : List MultiplierItem :=
  if k = 0 then freshItems ms else addActive (freshItems ms) ((k - 1) % ms.length)

/-- Closed form of the flow after `k` cycling ticks over the set `ms`. -/
def cyclingFlow (p : Page) (ms : List MultiplierEntry) (result : DrawResult) (k : Nat) : Flow :=
  { page := { animationPage p ms result with items := cyclingItems ms k },
    ticker :=
      { selectedMultiplier := result.selectedMultiplier, result := result,
        totalItems := ms.length, currentIndex := some (k % ms.length),
        cycles := k / ms.length, interval := true, timeout := false },
    uncaught := [], cycled := (List.range k).map (· % ms.length), settled := [] }

/-- Closed form of the flow once the settle block has run over the set `ms`. -/
def settledFlow (p : Page) (ms : List MultiplierEntry) (result : DrawResult) : Flow :=
  { page :=
      { animationPage p ms result with
        items := addActive (freshItems ms) (settleIndex ms result.selectedMultiplier) },
    ticker :=
      { selectedMultiplier := result.selectedMultiplier, result := result,
        totalItems := ms.length, currentIndex := some 0,
        cycles := maxCycles, interval := false, timeout := true },
    uncaught := [], cycled := (List.range (maxCycles * ms.length)).map (· % ms.length),
    settled := [settleIndex ms result.selectedMultiplier] }

/-- States a single flow over the set `ms` can reach: the state before the first tick,
and whatever a firing of the interval or of the settle timeout makes of a reachable
state. -/
inductive Reachable (p : Page) (ms : List MultiplierEntry) (result : DrawResult) :
    Flow → Prop where
  | start : Reachable p ms result (startAnimation p ms result)
  | tick {s : Flow} : Reachable p ms result s → Reachable p ms result (tick s)
  | settleTimeout {s : Flow} :
      Reachable p ms result s → Reachable p ms result (settleTimeout s)

/-- Number of items carrying the `'active'` class. -/
def activeCount (items : List MultiplierItem) : Nat :=
  items.countP fun it => it.active

/-- A set in which the selected value occurs twice. -/
def duplicateSet : List MultiplierEntry :=
  [⟨1, some 50⟩, ⟨2, some 30⟩, ⟨2, some 20⟩]

/-- A set of seven entries. -/
def sevenSet : List MultiplierEntry :=
  [⟨1, some 40⟩, ⟨2, some 20⟩, ⟨3, some 15⟩, ⟨4, some 10⟩, ⟨5, some 8⟩, ⟨6, some 5⟩,
   ⟨7, some 2⟩]

/-- What C3 asserts of one flow over the set `ms`: the interval stays set, with no settle
timeout, for every tick before tick `5 * n`; after `k ≤ 5 * n` ticks the cycle counter is
`k / n` and the position is `k % n`, the counter growing by one on exactly the ticks whose
new position is `0`; tick `5 * n` clears the interval and sets the timeout with the counter
at `5`, and by then the cycling highlight has made `5 * n` visits, `5` to every index. -/
def FivePassesThenSettle (p : Page) (ms : List MultiplierEntry) (result : DrawResult) : Prop :=
  (∀ k, k < 5 * ms.length →
    (ticks k (startAnimation p ms result)).ticker.interval = true ∧
    (ticks k (startAnimation p ms result)).ticker.timeout = false ∧
    (ticks k (startAnimation p ms result)).settled = []) ∧
  (∀ k, k ≤ 5 * ms.length →
    (ticks k (startAnimation p ms result)).ticker.cycles = k / ms.length ∧
    (ticks k (startAnimation p ms result)).ticker.currentIndex = some (k % ms.length)) ∧
  (∀ k, k < 5 * ms.length →
    (ticks (k + 1) (startAnimation p ms result)).ticker.cycles =
      (ticks k (startAnimation p ms result)).ticker.cycles +
        if (ticks (k + 1) (startAnimation p ms result)).ticker.currentIndex = some 0
        then 1 else 0) ∧
  (ticks (5 * ms.length) (startAnimation p ms result)).ticker.interval = false ∧
  (ticks (5 * ms.length) (startAnimation p ms result)).ticker.timeout = true ∧
  (ticks (5 * ms.length) (startAnimation p ms result)).ticker.cycles = 5 ∧
  (ticks (5 * ms.length) (startAnimation p ms result)).settled.length = 1 ∧
  (ticks (5 * ms.length) (startAnimation p ms result)).uncaught = [] ∧
  (ticks (5 * ms.length) (startAnimation p ms result)).cycled.length = 5 * ms.length ∧
  ∀ i, i < ms.length →
    (ticks (5 * ms.length) (startAnimation p ms result)).cycled.count i = 5

/-! ## The selection form and `generateFinalPrice` -/

/-- The class `StrWhiteSpaceChar` of ECMAScript: the white-space and line-terminator code points
that `parseInt` skips at the start of its input. -/
def isStrWhiteSpaceChar (c : Char) : Bool :=
  c.toNat ∈ [0x09, 0x0A, 0x0B, 0x0C, 0x0D, 0x20, 0xA0, 0x1680, 0x2000, 0x2001, 0x2002,
    0x2003, 0x2004, 0x2005, 0x2006, 0x2007, 0x2008, 0x2009, 0x200A, 0x2028, 0x2029, 0x202F,
    0x205F, 0x3000, 0xFEFF]

/-- Number of low bits a double cannot keep of `n`: the least `e` with `n / 2 ^ e < 2 ^ 53`,
searched for `fuel` steps. -/
def droppedBits : Nat → Nat → Nat
  | 0, _ => 0
  | fuel + 1, n => if n < 2 ^ 53 then 0 else droppedBits fuel (n / 2) + 1

/-- The number `2 ^ 1024`: integers that round to it or beyond become `Infinity`. -/
def doubleLimit : Nat := 2 ^ 256 * 2 ^ 256 * 2 ^ 256 * 2 ^ 256

/-- The double nearest to the natural number `n` (ties to the even significand), as a
natural number; `none` when it rounds to `Infinity`. `bits` bounds the bit length of
`n`. Every `n < 2 ^ 53` is returned unchanged. -/
def toDouble (bits n : Nat) : Option Nat :=
  let e := droppedBits bits n
  let q := n / 2 ^ e
  let r := n % 2 ^ e
  let significand :=
    if 2 * r < 2 ^ e then q
    else if 2 ^ e < 2 * r then q + 1
    else if q % 2 = 0 then q else q + 1
  if significand * 2 ^ e < doubleLimit then some (significand * 2 ^ e) else none

/-- The mathematical value of a string of decimal digits. -/
def digitsValue (ds : List Char) : Nat :=
  ds.foldl (fun acc c => 10 * acc + (c.toNat - 48)) 0

/-- The call `parseInt(string, 10)`: leading white space is skipped, one sign is read, then the
longest run of decimal digits; no digit gives `NaN`, otherwise the signed value of the run
converted to a Number (ECMAScript lets an engine zero the digits after the 20th; the
exact value is rounded here). Whatever follows the run is ignored. -/
def parseInt (string : String) : JSNumber :=
  let trimmed := string.data.dropWhile isStrWhiteSpaceChar
  let negative := trimmed.head? = some '-'
  let unsigned :=
    match trimmed with
    | c :: rest => if c = '-' ∨ c = '+' then rest else trimmed
    | [] => trimmed
  let digits := unsigned.takeWhile Char.isDigit
  if digits = [] then JSNumber.nan
  else
    match toDouble (4 * digits.length) (digitsValue digits) with
    | some v => JSNumber.finite (if negative then -(v : Int) else (v : Int))
    | none => JSNumber.infinity negative

/-- The call `isNaN(x)` on a Number. -/
def isNaN : JSNumber → Bool
  | .nan => true
  | _ => false

/-- The comparison `x < 1` on a Number (false for `NaN`). -/
def ltOne : JSNumber → Bool
  | .nan => false
  | .finite v => decide (v < 1)
  | .infinity negative => negative

/-- An `input[name="selectedOptions"]` checkbox: its `value` and whether it is checked. -/
structure Checkbox where
  value : String
  checked : Bool
deriving DecidableEq

/-- An element whose id is `quantity_${idNumber}`, with its `value`. The script only ever
looks up ids of this form, and distinct Numbers print differently, so the Number stands
for the id. -/
structure QuantityInput where
  idNumber : JSNumber
  value : String
deriving DecidableEq

/-- The part of the document `generateFinalPrice` reads, each list in document order. -/
structure Document where
  checkboxes : List Checkbox
  quantityInputs : List QuantityInput
deriving DecidableEq

/-- The lookup of the id `quantity_n` with `document.getElementById`: the first element
with that id, or `null`. -/
def getElementById (doc : Document) (n : JSNumber) : Option QuantityInput :=
  doc.quantityInputs.find? fun el => decide (el.idNumber = n)

/-- How a call of `generateFinalPrice` ends: it returns before building a request, it
returns after calling `startMultiplierAnimation(selectedOptions)`, or it throws. -/
inductive Completion where
  | returned
  | started (selectedOptions : List Selection)
  | threw (error : JSError)
deriving DecidableEq

/-- The synchronous part of `startMultiplierAnimation`: the `getMultipliers` fetch is
issued; its callbacks run later. -/
def startMultiplierAnimation (p : Page) (_selectedOptions : List Selection) : Page :=
  { p with fetches := p.fetches ++ [Fetch.getMultipliers] }

/-- The `forEach` over the checked checkboxes: `selectedOptions` is the array built so
far. A missing quantity element throws a `TypeError` on `.value`; an invalid quantity
raises the alert and throws; the exception ends the loop. -/
def collectSelectedOptions (doc : Document) :
    List Checkbox → List Selection → Page → Page × Except JSError (List Selection)
  | [], selectedOptions, p => (p, .ok selectedOptions)
  | checkbox :: rest, selectedOptions, p =>
    let optionNumber := parseInt checkbox.value
    match getElementById doc optionNumber with
    | none => (p, .error JSError.typeError)
    | some el =>
      let quantity := parseInt el.value
      if isNaN quantity || ltOne quantity then
        ({ p with alerts := p.alerts ++ [Alert.invalidQuantity optionNumber] },
          .error (JSError.invalidQuantity optionNumber))
      else
        collectSelectedOptions doc rest (selectedOptions ++ [⟨optionNumber, quantity⟩]) p

/-- The function `generateFinalPrice`: no checked checkbox gives the alert and a return;
otherwise the request is collected, the animation section shown, the result section
hidden and `startMultiplierAnimation` called. -/
def generateFinalPrice (doc : Document) (p : Page) : Page × Completion :=
  let selectedCheckboxes := doc.checkboxes.filter fun c => c.checked
  if selectedCheckboxes.length = 0 then
    ({ p with alerts := p.alerts ++ [Alert.selectAtLeastOne] }, Completion.returned)
  else
    match collectSelectedOptions doc selectedCheckboxes [] p with
    | (p1, .error e) => (p1, Completion.threw e)
    | (p1, .ok selectedOptions) =>
      (startMultiplierAnimation
          { p1 with animationSection := .block, resultSection := .hidden } selectedOptions,
        Completion.started selectedOptions)

/-- The checked checkboxes of `doc` are, in order, those of the items `(k, q)`: the
checkbox value is the decimal numeral of the option number `k`, and the element found
under `quantity_k` holds the decimal numeral of the quantity `q`. -/
def CheckedItems (doc : Document) (items : List (Nat × Nat)) : Prop :=
  List.Forall₂
    (fun c it => c.value = toString it.1 ∧
      ∃ el, getElementById doc (JSNumber.finite it.1) = some el ∧ el.value = toString it.2)
    (doc.checkboxes.filter fun c => c.checked) items

/-- The request entry for the item `(k, q)`. -/
def Selection.ofItem (it : Nat × Nat) : Selection :=
  ⟨JSNumber.finite it.1, JSNumber.finite it.2⟩

/-- Option 1 checked with `9007199254740993` (that is `2 ^ 53 + 1`) typed as quantity. -/
def largeQuantityDocument : Document :=
  { checkboxes := [⟨"1", true⟩], quantityInputs := [⟨JSNumber.finite 1, "9007199254740993"⟩] }

/-- Option 1 checked with `1e-3` typed as quantity. -/
def exponentDocument : Document :=
  { checkboxes := [⟨"1", true⟩], quantityInputs := [⟨JSNumber.finite 1, "1e-3"⟩] }

/-- Options 1 and 2 of three checked, with quantities `2` and `5`. -/
def validDocument : Document :=
  { checkboxes := [⟨"1", true⟩, ⟨"2", true⟩, ⟨"3", false⟩],
    quantityInputs :=
      [⟨JSNumber.finite 1, "2"⟩, ⟨JSNumber.finite 2, "5"⟩, ⟨JSNumber.finite 3, "1"⟩] }

/-- No option checked. -/
def emptyDocument : Document :=
  { checkboxes := [⟨"1", false⟩, ⟨"2", false⟩],
    quantityInputs := [⟨JSNumber.finite 1, "1"⟩, ⟨JSNumber.finite 2, "1"⟩] }

/-- Option 1 checked with a valid quantity, option 2 checked with quantity `0`. -/
def invalidSecondDocument : Document :=
  { checkboxes := [⟨"1", true⟩, ⟨"2", true⟩],
    quantityInputs := [⟨JSNumber.finite 1, "2"⟩, ⟨JSNumber.finite 2, "0"⟩] }

/-! ## The timers of one flow and the calls of `displayResults` -/

/-- The two timers of one call of `animateToSelectedMultiplier`. -/
inductive TimerEvent where
  | interval
  | timeout
deriving DecidableEq

/-- The arguments of the calls of `displayResults` made when the settle timeout fires in
state `s`: the one call `displayResults(result)` of its callback when the timeout has been
set and has not fired yet, none otherwise. -/
def displayResultsCalls (s : Flow) : List DrawResult :=
  if s.ticker.timeout then [s.ticker.result] else []

/-- One timer firing in a flow, together with the list of all `displayResults` calls made
so far, oldest first. -/
def fire (s : Flow × List DrawResult) : TimerEvent → Flow × List DrawResult
  | .interval => (tick s.1, s.2)
  | .timeout => (settleTimeout s.1, s.2 ++ displayResultsCalls s.1)

/-- A sequence of timer firings, run from the left. -/
def fireAll : List TimerEvent → Flow × List DrawResult → Flow × List DrawResult
  | [], s => s
  | e :: es, s => fireAll es (fire s e)

/-- The state Done of a flow: the settle block has run and the interval and the timeout
are both over. -/
def Flow.done (s : Flow) : Bool :=
  !s.ticker.interval && !s.ticker.timeout && !s.settled.isEmpty

/-! ## The promise chain of `startMultiplierAnimation` and concurrent flows -/

/-- The body of the `getMultipliers` response: `settings.multipliers` and
`settings.probabilities`. -/
structure Settings where
  multipliers : List ℚ
  probabilities : List ℚ
deriving DecidableEq

/-- The `map` of `startMultiplierAnimation` from position `index` on: each multiplier is
paired with `settings.probabilities[index]`. -/
def mapEntries : List ℚ → Nat → List ℚ → List MultiplierEntry
  | [], _, _ => []
  | multiplier :: rest, index, probabilities =>
    { multiplier := multiplier, probability := probabilities[index]? } ::
      mapEntries rest (index + 1) probabilities

/-- The first `then` callback of `startMultiplierAnimation` on a settings object: the
module-level `multipliers` is replaced, the list is populated and the
`generateFinalPrices` fetch is issued. -/
def onMultipliers (p : Page) (settings : Settings) (selectedOptions : List Selection) : Page :=
  let multipliers := mapEntries settings.multipliers 0 settings.probabilities
  let p1 := populateMultipliersListForAnimation { p with multipliers := multipliers } multipliers
  { p1 with fetches := p1.fetches ++ [Fetch.generateFinalPrices selectedOptions] }

/-- The innermost `then` callback of `startMultiplierAnimation` on a result object: the
module-level `selectedMultiplier` is set and `animateToSelectedMultiplier` is called. -/
def onResult (p : Page) (result : DrawResult) : Flow :=
  animateToSelectedMultiplier { p with selectedMultiplier := some result.selectedMultiplier }
    result.selectedMultiplier result

/-- The `catch` callback of `startMultiplierAnimation`: the error is logged, the alert is
raised and the animation section is hidden. -/
def onError (p : Page) : Page :=
  { p with console := p.console ++ ["Error during multiplier animation:"],
           alerts := p.alerts ++ [Alert.generatingFailed],
           animationSection := .hidden }

/-- Where the promise chain of one call of `startMultiplierAnimation` stands. A chain is
`failed` once its `catch` callback has run: a fetch was rejected, a body was not JSON, or
a `then` callback threw on the body before assigning anything. -/
inductive Stage where
  | awaitingMultipliers
  | awaitingResult
  | animating
  | failed
deriving DecidableEq

/-- One call of `startMultiplierAnimation(selectedOptions)`. -/
structure Chain where
  selectedOptions : List Selection
  stage : Stage
deriving DecidableEq

/-- One call of `animateToSelectedMultiplier`: the position in `System.chains` of the
chain that made it, its closure variables and its record of highlights. -/
structure Loop where
  origin : Nat
  ticker : Ticker
  cycled : List Nat
  settled : List Nat
deriving DecidableEq

/-- The page with every flow started on it: the promise chains in the order of their
start, the animations in the order of theirs, the exceptions that escaped a handler or a
callback, and the calls of `displayResults` with the chain they belong to. -/
structure System where
  page : Page
  chains : List Chain
  loops : List Loop
  uncaught : List JSError
  displayCalls : List (Nat × DrawResult)
deriving DecidableEq

/-- The page as loaded, before any flow. -/
def System.initial : System :=
  { page := Page.initial, chains := [], loops := [], uncaught := [], displayCalls := [] }

/-- What can happen on the page: the user triggers `generateFinalPrice` on the form as it
stands, a fetch of chain `i` completes or fails, a timer of animation `j` fires. -/
inductive Event where
  | trigger (doc : Document)
  | multipliersArrive (i : Nat) (settings : Settings)
  | multipliersFail (i : Nat)
  | resultArrives (i : Nat) (result : DrawResult)
  | resultFails (i : Nat)
  | tick (j : Nat)
  | timeout (j : Nat)
deriving DecidableEq

/-- Whether the event is a user trigger. -/
def Event.isTrigger : Event → Bool
  | .trigger _ => true
  | _ => false

/-- The flow record on which the callbacks of animation `l` run in system `s`. -/
def Loop.flow (s : System) (l : Loop) : Flow :=
  { page := s.page, ticker := l.ticker, uncaught := s.uncaught, cycled := l.cycled,
    settled := l.settled }

/-- The system after a callback of animation `j`, of origin `origin`, has turned its
flow record into `f`. -/
def System.putFlow (s : System) (j origin : Nat) (f : Flow) : System :=
  { s with page := f.page, uncaught := f.uncaught,
           loops := s.loops.set j
             { origin := origin, ticker := f.ticker, cycled := f.cycled,
               settled := f.settled } }

/-- One event; `none` when it cannot happen in `s` (no such chain or animation, the chain
is not waiting for that response, the timer is not set). Nothing in the script refuses a
trigger. -/
def step (s : System) : Event → Option System
  | .trigger doc =>
    match generateFinalPrice doc s.page with
    | (p, Completion.started selectedOptions) =>
      some { s with page := p,
                    chains := s.chains ++ [⟨selectedOptions, Stage.awaitingMultipliers⟩] }
    | (p, Completion.returned) => some { s with page := p }
    | (p, Completion.threw e) => some { s with page := p, uncaught := s.uncaught ++ [e] }
  | .multipliersArrive i settings =>
    match s.chains[i]? with
    | some c =>
      if c.stage = Stage.awaitingMultipliers then
        some { s with page := onMultipliers s.page settings c.selectedOptions,
                      chains := s.chains.set i { c with stage := Stage.awaitingResult } }
      else none
    | none => none
  | .multipliersFail i =>
    match s.chains[i]? with
    | some c =>
      if c.stage = Stage.awaitingMultipliers then
        some { s with page := onError s.page,
                      chains := s.chains.set i { c with stage := Stage.failed } }
      else none
    | none => none
  | .resultArrives i result =>
    match s.chains[i]? with
    | some c =>
      if c.stage = Stage.awaitingResult then
        some { s with page := (onResult s.page result).page,
                      chains := s.chains.set i { c with stage := Stage.animating },
                      loops := s.loops ++
                        [{ origin := i, ticker := (onResult s.page result).ticker,
                           cycled := [], settled := [] }] }
      else none
    | none => none
  | .resultFails i =>
    match s.chains[i]? with
    | some c =>
      if c.stage = Stage.awaitingResult then
        some { s with page := onError s.page,
                      chains := s.chains.set i { c with stage := Stage.failed } }
      else none
    | none => none
  | .tick j =>
    match s.loops[j]? with
    | some l =>
      if l.ticker.interval then some (s.putFlow j l.origin (tick (l.flow s))) else none
    | none => none
  | .timeout j =>
    match s.loops[j]? with
    | some l =>
      if l.ticker.timeout then
        some { s.putFlow j l.origin (settleTimeout (l.flow s)) with
               displayCalls := s.displayCalls ++ [(l.origin, l.ticker.result)] }
      else none
    | none => none

/-- A sequence of events from the left; `none` as soon as one cannot happen. -/
def run : List Event → System → Option System
  | [], s => some s
  | e :: es, s =>
    match step s e with
    | some s1 => run es s1
    | none => none

/-- Number of animations whose interval is set and not cleared. -/
def activeLoops (s : System) : Nat :=
  s.loops.countP fun l => l.ticker.interval

/-- The settings object of the scenario in the specification. -/
def scenarioSettings : Settings :=
  { multipliers := [1, 2, 3], probabilities := [50, 30, 20] }

/-- The chain at position `i` of `s` is in stage `stage`. -/
def System.chainStage (s : System) (i : Nat) (stage : Stage) : Prop :=
  ∃ c, s.chains[i]? = some c ∧ c.stage = stage

/-- What every state reached from the loaded page satisfies: each animation and each call
of `displayResults` belongs to a chain that got to `animating`, no chain has more than one
animation, and there is one chain per `getMultipliers` fetch issued. -/
def System.Consistent (s : System) : Prop :=
  (∀ l ∈ s.loops, s.chainStage l.origin Stage.animating) ∧
  (∀ d ∈ s.displayCalls, s.chainStage d.1 Stage.animating) ∧
  (s.loops.map fun l => l.origin).Nodup ∧
  s.chains.length = s.page.fetches.count Fetch.getMultipliers

/-- The chain whose fetch the event completes or fails, if it is such an event. -/
def Event.chain? : Event → Option Nat
  | .multipliersArrive i _ => some i
  | .multipliersFail i => some i
  | .resultArrives i _ => some i
  | .resultFails i => some i
  | _ => none

/-- What C11 asserts when a fetch of chain `i` fails in state `s`, giving `s1`: the
animation section is hidden, the alert is raised, no fetch is issued, no animation is
started and `displayResults` is not called; and in every later state chain `i` is still
failed with none of its fetch events possible, no animation and no call of
`displayResults` belongs to it, and the section is still hidden unless a new flow has
been triggered. -/
def FlowAborted (s : System) (i : Nat) (s1 : System) : Prop :=
  s1.page.animationSection = .hidden ∧
  s1.page.alerts = s.page.alerts ++ [Alert.generatingFailed] ∧
  s1.page.fetches = s.page.fetches ∧
  s1.loops = s.loops ∧
  s1.displayCalls = s.displayCalls ∧
  s1.chainStage i Stage.failed ∧
  ∀ es s2, run es s1 = some s2 →
    s2.chainStage i Stage.failed ∧
    (∀ e, e.chain? = some i → step s2 e = none) ∧
    (∀ l ∈ s2.loops, l.origin ≠ i) ∧
    (∀ d ∈ s2.displayCalls, d.1 ≠ i) ∧
    ((∀ e ∈ es, e.isTrigger = false) → s2.page.animationSection = .hidden)

/-- One flow from the trigger to its first tick: the form with options 1 and 2 checked
is submitted, the scenario settings arrive, the draw `{2, 40}` arrives, the interval fires
once. -/
def firstFlowEvents : List Event :=
  [Event.trigger validDocument, Event.multipliersArrive 0 scenarioSettings,
    Event.resultArrives 0 ⟨2, 40⟩, Event.tick 0]

/-- The state after `firstFlowEvents`: one flow, cycling. -/
def cyclingSystem : System :=
  (run firstFlowEvents System.initial).getD System.initial

/-- The state after the form with options 1 and 2 checked has been submitted: one chain,
waiting for the multipliers. -/
def awaitingSystem : System :=
  (run [Event.trigger validDocument] System.initial).getD System.initial

/-- The state after the `getMultipliers` fetch of that chain has failed. -/
def abortedSystem : System :=
  (step awaitingSystem (Event.multipliersFail 0)).getD System.initial

/-- A chain that still waits for one of its two fetches. -/
def Stage.pending : Stage → Bool
  | .awaitingMultipliers => true
  | .awaitingResult => true
  | _ => false

/-- Number of flows that wait for a fetch. -/
def pendingChains (s : System) : Nat :=
  s.chains.countP fun c => c.stage.pending

/-- No flow waits for a fetch and no interval is set: every flow started so far has
failed, or has had its interval cleared by its settle block (line 212). -/
def System.quiet (s : System) : Bool :=
  pendingChains s = 0 && activeLoops s = 0

/-- Whether the event starts a flow in `s`: a trigger on a form that passes the
validation of `generateFinalPrice`, which then calls `startMultiplierAnimation`. -/
def Event.startsFlow (s : System) : Event → Bool
  | .trigger doc =>
    match (generateFinalPrice doc s.page).2 with
    | Completion.started _ => true
    | _ => false
  | _ => false

/-- The run `es` from `s` starts flows only in quiet states: flows come one after
another. A flow started during Settling or after Done is one of them, and a trigger on a
form that fails validation may come at any time. -/
def sequential : List Event → System → Bool
  | [], _ => true
  | e :: es, s =>
    (!e.startsFlow s || s.quiet) &&
      match step s e with
      | some s1 => sequential es s1
      | none => true

/-- Two flows one after the other: the first flow runs its fifteen ticks, and while it is
in Settling the form is submitted again; the second flow gets its settings and its draw
and ticks once, then the settle timeout of the first flow fires. -/
def sequentialEvents : List Event :=
  firstFlowEvents ++ List.replicate 14 (Event.tick 0) ++
    [Event.trigger validDocument, Event.multipliersArrive 1 scenarioSettings,
      Event.resultArrives 1 ⟨3, 60⟩, Event.tick 1, Event.timeout 0]

/-- The state after `sequentialEvents`: the first flow is Done, the second is cycling. -/
def secondCyclingSystem : System :=
  (run sequentialEvents System.initial).getD System.initial

/-! ## The multipliers table of the admin panel and `saveMultipliers` -/

/-- The power `2 ^ e`, computed by doubling. -/
def pow2 : Nat → Nat
  | 0 => 1
  | e + 1 => 2 * pow2 e

/-- The number `2 ^ 1074`: how many units of `2 ^ -1074`, the spacing of the smallest
doubles, make `1`. Every finite double is a whole number of these units. -/
def gridScale : Nat := 2 ^ 256 * 2 ^ 256 * 2 ^ 256 * 2 ^ 256 * 2 ^ 50

/-- The double nearest to `n / d` units (ties to the even significand), in units; `none`
when it rounds to `Infinity`. The result keeps 53 significant bits: the `e` low bits of
the integer part of the quotient are dropped, and what was dropped decides whether the
significand is rounded up. Nothing is dropped of a quotient below `2 ^ 53` units but its
fraction. -/
def roundRatio (n d : Nat) : Option Nat :=
  let e := droppedBits (n / d) (n / d)
  let q := n / (d * pow2 e)
  let r := n % (d * pow2 e)
  let significand :=
    if 2 * r < d * pow2 e then q
    else if d * pow2 e < 2 * r then q + 1
    else if q % 2 = 0 then q else q + 1
  if significand * pow2 e < doubleLimit * gridScale then some (significand * pow2 e)
  else none

/-- A Number as `parseFloat` returns it and `+` adds it: `NaN`, an infinity, or a finite
double, held as its whole number of units of `2 ^ -1074`. `-0` and `+0` are both
`finite 0`: no comparison of `saveMultipliers` tells them apart. -/
inductive Double where
  | nan
  | finite (units : Int)
  | infinity (negative : Bool)
deriving DecidableEq

/-- The double nearest to `z` units: the magnitude is rounded, the sign is kept. -/
def Double.round (z : Int) : Double :=
  match roundRatio z.natAbs 1 with
  | some n => Double.finite (if z < 0 then -(n : Int) else (n : Int))
  | none => Double.infinity (decide (z < 0))

/-- The operator `+` on two Numbers: the exact sum of two finite doubles, rounded; `NaN`
from a `NaN` operand and from infinities of opposite signs. -/
def Double.add : Double → Double → Double
  | .nan, _ => .nan
  | _, .nan => .nan
  | .infinity a, .infinity b => if a = b then .infinity a else .nan
  | .infinity a, .finite _ => .infinity a
  | .finite _, .infinity b => .infinity b
  | .finite a, .finite b => Double.round (a + b)

/-- The operator `<` on two Numbers; false when an operand is `NaN`. -/
def Double.lt : Double → Double → Bool
  | .finite a, .finite b => decide (a < b)
  | .finite _, .infinity negative => !negative
  | .infinity negative, .finite _ => negative
  | .infinity a, .infinity b => a && !b
  | _, _ => false

/-- The operator `<=` on two Numbers; false when an operand is `NaN`. -/
def Double.le : Double → Double → Bool
  | .finite a, .finite b => decide (a ≤ b)
  | .finite _, .infinity negative => !negative
  | .infinity negative, .finite _ => negative
  | .infinity a, .infinity b => a || !b
  | _, _ => false

/-- The operator `===` on two Numbers; `NaN` equals nothing. -/
def Double.strictEquals : Double → Double → Bool
  | .nan, _ => false
  | _, .nan => false
  | a, b => decide (a = b)

/-- The global `isNaN` on a Number. -/
def Double.isNaN : Double → Bool
  | .nan => true
  | _ => false

/-- The Number of the integer literal `k`; every `k` up to `2 ^ 53` is a double. -/
def Double.ofNat (k : Nat) : Double := Double.finite ((k * gridScale : Nat) : Int)

/-- The Number that `parseFloat` returns for the decimal numeral
`mantissa × 10 ^ exponent`: the double nearest to its value. -/
def Double.ofDecimal (mantissa : Nat) (exponent : Int) : Double :=
  let rounded :=
    if 0 ≤ exponent then roundRatio (mantissa * 10 ^ exponent.toNat * gridScale) 1
    else roundRatio (mantissa * gridScale) (10 ^ (-exponent).toNat)
  match rounded with
  | some n => Double.finite (n : Int)
  | none => Double.infinity false

/-- Whether the value is a double: rounding a finite value gives it back. Every Number
of the script is one, the results of `parseFloat` and of `+` among them;
`Double.finite` has room for other values as well. -/
def Double.representable : Double → Bool
  | .finite z => decide (roundRatio z.natAbs 1 = some z.natAbs)
  | _ => true

/-- Whether the value is a non-negative whole multiple of `2 ^ -46`; every non-negative
whole number is one. -/
def Double.onGrid : Double → Bool
  | .finite z => decide (0 ≤ z) && decide (z.toNat % pow2 1028 = 0)
  | _ => false

/-- The units of a finite Number; `0` for the others. -/
def Double.units : Double → Int
  | .finite z => z
  | _ => 0

/-- One row of `#multipliersTable` as `saveMultipliers` reads it: the Numbers that
`parseFloat` returns for its two inputs (`NaN` for an empty field). -/
structure MultiplierRow where
  multiplier : Double
  probability : Double
deriving DecidableEq

/-- The alerts of `saveMultipliers`, by message template; rows are counted from 1. -/
inductive SaveAlert where
  | invalidMultiplier (row : Nat)
  | invalidProbability (row : Nat)
  | totalNot100 (totalProb : Double)
deriving DecidableEq

/-- How `saveMultipliers` ends: with an alert and a return, or with the call of `fetch`
whose parameters carry the two arrays. -/
inductive SaveOutcome where
  | alerted (alert : SaveAlert)
  | submitted (multipliers probabilities : List Double)
deriving DecidableEq

/-- The `for` loop of `saveMultipliers` from row index `i` on, `multipliers` and
`probabilities` being the arrays pushed so far: the first row whose multiplier is `NaN`
or `<= 0`, or else whose probability is `NaN` or `< 0`, ends the function with its
alert. -/
def collectRows :
    List MultiplierRow → Nat → List Double → List Double →
      Except SaveAlert (List Double × List Double)
  | [], _, multipliers, probabilities => .ok (multipliers, probabilities)
  | row :: rest, i, multipliers, probabilities =>
    if row.multiplier.isNaN || Double.le row.multiplier (Double.ofNat 0) then
      .error (SaveAlert.invalidMultiplier (i + 1))
    else if row.probability.isNaN || Double.lt row.probability (Double.ofNat 0) then
      .error (SaveAlert.invalidProbability (i + 1))
    else
      collectRows rest (i + 1) (multipliers ++ [row.multiplier])
        (probabilities ++ [row.probability])

/-- The function `saveMultipliers` up to its `fetch`: the rows are collected, the
probabilities are added with `reduce` from `0`, left to right and each sum rounded, and a
total that is not `=== 100` ends the function with its alert. -/
def saveMultipliers (rows : List MultiplierRow) : SaveOutcome :=
  match collectRows rows 0 [] [] with
  | .error alert => SaveOutcome.alerted alert
  | .ok (multipliers, probabilities) =>
    let totalProb := probabilities.foldl (fun sum p => Double.add sum p) (Double.ofNat 0)
    if !Double.strictEquals totalProb (Double.ofNat 100) then
      SaveOutcome.alerted (SaveAlert.totalNot100 totalProb)
    else SaveOutcome.submitted multipliers probabilities

/-- A row that fails one of the two row checks: its multiplier is not a number or is
`<= 0`, or its probability is not a number or is `< 0`. -/
def MultiplierRow.violates (row : MultiplierRow) : Bool :=
  row.multiplier.isNaN || Double.le row.multiplier (Double.ofNat 0) ||
    row.probability.isNaN || Double.lt row.probability (Double.ofNat 0)

/-- The total of the probability column as the script computes it: added as doubles from
`0`, left to right. -/
def computedTotal (rows : List MultiplierRow) : Double :=
  (rows.map fun row => row.probability).foldl (fun sum p => Double.add sum p)
    (Double.ofNat 0)

/-- The exact total of the probability column, in units of `2 ^ -1074`. -/
def exactTotal (rows : List MultiplierRow) : Int :=
  (rows.map fun row => row.probability.units).sum

/-- The table of the scenario in the specification. -/
def scenarioRows : List MultiplierRow :=
  [⟨Double.ofNat 1, Double.ofNat 50⟩, ⟨Double.ofNat 2, Double.ofNat 30⟩,
    ⟨Double.ofNat 3, Double.ofNat 20⟩]

/-- A table whose probabilities sum to 90. -/
def shortRows : List MultiplierRow :=
  [⟨Double.ofNat 1, Double.ofNat 50⟩, ⟨Double.ofNat 2, Double.ofNat 40⟩]

/-- A table whose probability fields hold `50`, `50` and `1e-15`: the total of the three
fields is `100.000000000000001`. -/
def roundedRows : List MultiplierRow :=
  [⟨Double.ofNat 1, Double.ofNat 50⟩, ⟨Double.ofNat 2, Double.ofNat 50⟩,
    ⟨Double.ofNat 3, Double.ofDecimal 1 (-15)⟩]

/-- A table whose probability fields hold `0.1`, `64.1` and `35.8`. -/
def decimalRows : List MultiplierRow :=
  [⟨Double.ofNat 1, Double.ofDecimal 1 (-1)⟩, ⟨Double.ofNat 2, Double.ofDecimal 641 (-1)⟩,
    ⟨Double.ofNat 3, Double.ofDecimal 358 (-1)⟩]

/-- A table whose probabilities are the doubles `100 - 2 ^ -46` and sixteen times
`2 ^ -50`: their exact total is `100`. -/
def smallStepRows : List MultiplierRow :=
  ⟨Double.ofNat 1, Double.finite ((100 * 2 ^ 46 - 1) * pow2 1028)⟩ ::
    List.replicate 16 ⟨Double.ofNat 1, Double.finite (pow2 1024)⟩

/-! ## Lemmas on the list helpers -/

theorem findIndexFrom_eq {α : Type} (p : α → Bool) (xs : List α) (i : Nat) :
    findIndexFrom p xs i =
      if List.findIdx p xs < xs.length then ((i + List.findIdx p xs : Nat) : Int) else -1 := by
  induction xs generalizing i with
  | nil => simp [findIndexFrom]
  | cons x xs ih =>
    by_cases hx : p x = true
    · simp [findIndexFrom, List.findIdx_cons, hx]
    · simp only [Bool.not_eq_true] at hx
      simp only [findIndexFrom, hx, List.findIdx_cons, ih, List.length_cons]
      simp only [Bool.false_eq_true, if_false, cond_false, Nat.add_lt_add_iff_right]
      split
      · simp; omega
      · simp

theorem findIndex_eq {α : Type} (p : α → Bool) (xs : List α) :
    findIndex p xs = if List.findIdx p xs < xs.length then (List.findIdx p xs : Int) else -1 := by
  simp [findIndex, findIndexFrom_eq]

theorem settleIndex_eq (ms : List MultiplierEntry) (sel : ℚ) :
    settleIndex ms sel =
      if List.findIdx (fun m => decide (m.multiplier = sel)) ms < ms.length
      then List.findIdx (fun m => decide (m.multiplier = sel)) ms else 0 := by
  unfold settleIndex
  simp only [findIndex_eq]
  split
  · have h : ¬ ((List.findIdx (fun m => decide (m.multiplier = sel)) ms : Int) = -1) := by omega
    simp [h]
  · simp

theorem settleIndex_lt (ms : List MultiplierEntry) (sel : ℚ) (h : ms ≠ []) :
    settleIndex ms sel < ms.length := by
  rw [settleIndex_eq]
  split
  · assumption
  · exact List.length_pos.mpr h

/-! ## Lemmas on the highlight operations -/

theorem removeActive_length (items : List MultiplierItem) :
    (removeActive items).length = items.length := by
  simp [removeActive]

theorem addActive_length (items : List MultiplierItem) (i : Nat) :
    (addActive items i).length = items.length := by
  induction items generalizing i with
  | nil => rfl
  | cons it rest ih => cases i <;> simp [addActive, ih]

theorem removeActive_addActive (items : List MultiplierItem) (i : Nat) :
    removeActive (addActive items i) = removeActive items := by
  induction items generalizing i with
  | nil => rfl
  | cons it rest ih =>
    cases i with
    | zero => simp [addActive, removeActive]
    | succ j =>
      have := ih j
      simp only [removeActive] at this
      simp [addActive, removeActive, this]

theorem removeActive_freshItems (ms : List MultiplierEntry) :
    removeActive (freshItems ms) = freshItems ms := by
  simp [removeActive, freshItems]

theorem removeActive_cyclingItems (ms : List MultiplierEntry) (k : Nat) :
    removeActive (cyclingItems ms k) = freshItems ms := by
  unfold cyclingItems
  split
  · exact removeActive_freshItems ms
  · rw [removeActive_addActive, removeActive_freshItems]

theorem freshItems_length (ms : List MultiplierEntry) : (freshItems ms).length = ms.length := by
  simp [freshItems]

theorem activeCount_removeActive (items : List MultiplierItem) :
    activeCount (removeActive items) = 0 := by
  simp [activeCount, removeActive, List.countP_eq_zero]

theorem activeCount_addActive_le (items : List MultiplierItem) (i : Nat) :
    activeCount (addActive items i) ≤ activeCount items + 1 := by
  induction items generalizing i with
  | nil => simp [addActive, activeCount]
  | cons it rest ih =>
    cases i with
    | zero =>
      simp only [addActive, activeCount, List.countP_cons]
      split <;> split <;> omega
    | succ j =>
      have := ih j
      simp only [activeCount] at this
      simp only [addActive, activeCount, List.countP_cons]
      omega

theorem getElem?_addActive_freshItems (ms : List MultiplierEntry) (i j : Nat)
    (it : MultiplierItem) (h : (addActive (freshItems ms) i)[j]? = some it) :
    ∃ e, ms[j]? = some e ∧ it.shown = e.multiplier ∧ (it.active = true ↔ j = i) := by
  induction ms generalizing i j with
  | nil => simp [freshItems, addActive] at h
  | cons m rest ih =>
    cases i with
    | zero =>
      cases j with
      | zero =>
        simp only [freshItems, List.map_cons, addActive, List.getElem?_cons_zero,
          Option.some.injEq] at h
        subst h
        exact ⟨m, by simp⟩
      | succ j2 =>
        simp only [freshItems, List.map_cons, addActive, List.getElem?_cons_succ,
          List.getElem?_map] at h
        cases hr : rest[j2]? with
        | none => simp [hr] at h
        | some e =>
          simp only [hr, Option.map_some', Option.some.injEq] at h
          subst h
          exact ⟨e, by simp [hr]⟩
    | succ i2 =>
      cases j with
      | zero =>
        simp only [freshItems, List.map_cons, addActive, List.getElem?_cons_zero,
          Option.some.injEq] at h
        subst h
        exact ⟨m, by simp⟩
      | succ j2 =>
        have h2 : (addActive (freshItems rest) i2)[j2]? = some it := by
          simpa [freshItems, addActive] using h
        obtain ⟨e, he, hs, ha⟩ := ih i2 j2 h2
        exact ⟨e, by simpa using he, hs, by simpa using ha⟩

/-! ## Closed form of the tick loop over a non-empty set -/

theorem ticks_succ (k : Nat) (s : Flow) : ticks (k + 1) s = tick (ticks k s) := by
  induction k generalizing s with
  | zero => rfl
  | succ k ih => exact ih (tick s)

theorem ticks_add (j k : Nat) (s : Flow) : ticks (j + k) s = ticks k (ticks j s) := by
  induction j generalizing s with
  | zero => simp [ticks]
  | succ j ih =>
    rw [Nat.add_right_comm]
    exact ih (tick s)

theorem startAnimation_eq_cyclingFlow (p : Page) (ms : List MultiplierEntry)
    (result : DrawResult) : startAnimation p ms result = cyclingFlow p ms result 0 := by
  simp [startAnimation, cyclingFlow, animateToSelectedMultiplier, animationPage,
    populateMultipliersListForAnimation, cyclingItems, freshItems]

theorem succ_div_of_wrap (k n : Nat) :
    (if (k % n + 1) % n = 0 then k / n + 1 else k / n) = (k + 1) / n := by
  rw [Nat.succ_div]
  have h1 : (k % n + 1) % n = (k + 1) % n := by
    rw [Nat.add_mod, Nat.mod_mod, ← Nat.add_mod]
  rw [h1]
  by_cases h : (k + 1) % n = 0
  · simp [h, Nat.dvd_of_mod_eq_zero h]
  · have : ¬ n ∣ k + 1 := fun hd => h (Nat.mod_eq_zero_of_dvd hd)
    simp [h, this]

theorem tick_cyclingFlow (p : Page) (ms : List MultiplierEntry) (result : DrawResult)
    (k : Nat) (hne : ms ≠ []) :
    tick (cyclingFlow p ms result k) =
      if maxCycles * ms.length ≤ k + 1 then
        { settledFlow p ms result with
          ticker := { (settledFlow p ms result).ticker with
                      currentIndex := some ((k + 1) % ms.length),
                      cycles := (k + 1) / ms.length },
          cycled := (List.range (k + 1)).map (· % ms.length) }
      else cyclingFlow p ms result (k + 1) := by
  have hn : 0 < ms.length := List.length_pos.mpr hne
  have hlt : k % ms.length < ms.length := Nat.mod_lt _ hn
  have hmod : (k % ms.length + 1) % ms.length = (k + 1) % ms.length := by
    rw [Nat.add_mod, Nat.mod_mod, ← Nat.add_mod]
  have hcyc := succ_div_of_wrap k ms.length
  rw [hmod] at hcyc
  have hidx := settleIndex_lt ms result.selectedMultiplier hne
  have hle : maxCycles ≤ (k + 1) / ms.length ↔ maxCycles * ms.length ≤ k + 1 :=
    Nat.le_div_iff_mul_le hn
  have hrange : (List.range (k + 1)).map (· % ms.length)
      = (List.range k).map (· % ms.length) ++ [k % ms.length] := by
    simp [List.range_succ]
  unfold tick
  simp only [cyclingFlow, removeActive_cyclingItems, freshItems_length, hlt, if_true,
    nextIndex, Nat.pos_iff_ne_zero.mp hn, if_false, Option.some.injEq, hcyc, hle, hmod]
  by_cases hk : maxCycles * ms.length ≤ k + 1
  · simp only [hk, if_true, settle, settledFlow, animationPage,
      populateMultipliersListForAnimation, removeActive_addActive, removeActive_freshItems,
      freshItems_length]
    have hidx2 : settleIndex ms result.selectedMultiplier < ms.length := hidx
    unfold settleIndex at hidx2
    simp only [hidx2, if_true, hrange]
    simp [settleIndex]
  · simp only [hk, if_false, hrange, cyclingItems]
    simp

theorem ticks_cycling (p : Page) (ms : List MultiplierEntry) (result : DrawResult)
    (hne : ms ≠ []) (k : Nat) (hk : k < maxCycles * ms.length) :
    ticks k (startAnimation p ms result) = cyclingFlow p ms result k := by
  induction k with
  | zero => exact startAnimation_eq_cyclingFlow p ms result
  | succ k ih =>
    rw [ticks_succ, ih (by omega), tick_cyclingFlow p ms result k hne]
    simp [Nat.not_le.mpr hk]

theorem ticks_settle (p : Page) (ms : List MultiplierEntry) (result : DrawResult)
    (hne : ms ≠ []) :
    ticks (maxCycles * ms.length) (startAnimation p ms result) = settledFlow p ms result := by
  have hn : 0 < ms.length := List.length_pos.mpr hne
  obtain ⟨k, hk⟩ : ∃ k, maxCycles * ms.length = k + 1 :=
    ⟨maxCycles * ms.length - 1, by simp only [maxCycles]; omega⟩
  rw [hk, ticks_succ, ticks_cycling p ms result hne k (by omega),
    tick_cyclingFlow p ms result k hne]
  simp only [hk, le_refl, if_true]
  rw [← hk]
  simp [settledFlow, Nat.mul_mod_left, Nat.mul_div_cancel _ hn]

theorem tick_settledFlow (p : Page) (ms : List MultiplierEntry) (result : DrawResult) :
    tick (settledFlow p ms result) = settledFlow p ms result := by
  simp [tick, settledFlow]

theorem ticks_settledFlow (p : Page) (ms : List MultiplierEntry) (result : DrawResult)
    (k : Nat) : ticks k (settledFlow p ms result) = settledFlow p ms result := by
  induction k with
  | zero => rfl
  | succ k ih => rw [ticks_succ, ih, tick_settledFlow]

theorem ticks_after_settle (p : Page) (ms : List MultiplierEntry) (result : DrawResult)
    (hne : ms ≠ []) (k : Nat) (hk : maxCycles * ms.length ≤ k) :
    ticks k (startAnimation p ms result) = settledFlow p ms result := by
  obtain ⟨j, rfl⟩ := Nat.exists_eq_add_of_le hk
  rw [ticks_add, ticks_settle p ms result hne, ticks_settledFlow]

/-! ## The index chosen by the settle block -/

theorem settleIndex_of_mem (ms : List MultiplierEntry) (sel : ℚ)
    (h : ∃ e ∈ ms, e.multiplier = sel) :
    ∃ e, ms[settleIndex ms sel]? = some e ∧ e.multiplier = sel ∧
      ∀ j e2, j < settleIndex ms sel → ms[j]? = some e2 → e2.multiplier ≠ sel := by
  have hex : ∃ e ∈ ms, (fun m : MultiplierEntry => decide (m.multiplier = sel)) e = true := by
    obtain ⟨e, he, hs⟩ := h
    exact ⟨e, he, by simpa using hs⟩
  have hlt := List.findIdx_lt_length_of_exists hex
  have hidx : settleIndex ms sel
      = List.findIdx (fun m => decide (m.multiplier = sel)) ms := by
    rw [settleIndex_eq, if_pos hlt]
  refine ⟨ms[List.findIdx (fun m => decide (m.multiplier = sel)) ms], ?_, ?_, ?_⟩
  · rw [hidx, List.getElem?_eq_getElem hlt]
  · have := @List.findIdx_getElem MultiplierEntry (fun m => decide (m.multiplier = sel)) ms hlt
    simpa using this
  · intro j e2 hj he2
    rw [hidx] at hj
    have hjl : j < ms.length := Nat.lt_trans hj hlt
    have := List.not_of_lt_findIdx hj
    rw [List.getElem?_eq_getElem hjl] at he2
    cases he2
    simpa using this

theorem settleIndex_of_not_mem (ms : List MultiplierEntry) (sel : ℚ)
    (h : ∀ e ∈ ms, e.multiplier ≠ sel) : settleIndex ms sel = 0 := by
  rw [settleIndex_eq]
  have : ¬ List.findIdx (fun m => decide (m.multiplier = sel)) ms < ms.length := by
    rw [List.findIdx_lt_length]
    rintro ⟨e, he, hp⟩
    exact h e he (by simpa using hp)
  rw [if_neg this]

theorem getElem?_addActive_self (ms : List MultiplierEntry) (i : Nat) (e : MultiplierEntry)
    (h : ms[i]? = some e) :
    (addActive (freshItems ms) i)[i]? = some { shown := e.multiplier, active := true } := by
  induction ms generalizing i with
  | nil => simp at h
  | cons m rest ih =>
    cases i with
    | zero =>
      simp only [List.getElem?_cons_zero, Option.some.injEq] at h
      subst h
      simp [freshItems, addActive]
    | succ j =>
      have := ih j (by simpa using h)
      simpa [freshItems, addActive] using this

theorem settleTimeout_items (s : Flow) : (settleTimeout s).page.items = s.page.items := by
  unfold settleTimeout
  split <;> rfl

/-! ## Claims on the reveal animation -/

/-- C1: when the resolved `selectedMultiplier` is the multiplier of some entry of the set,
then from the settle tick on (tick `5 * n` and every later firing, also once the settle
timeout has fired) exactly one item is highlighted, it is the item of an entry whose
multiplier equals `selectedMultiplier`, and it shows that multiplier. Duplicate values in
the set are allowed. -/
theorem settled_highlight_is_selected (p : Page) (ms : List MultiplierEntry)
    (result : DrawResult) (k : Nat)
    (hmem : ∃ e ∈ ms, e.multiplier = result.selectedMultiplier)
    (hk : maxCycles * ms.length ≤ k) :
    ∃ i e, ms[i]? = some e ∧ e.multiplier = result.selectedMultiplier ∧
      (ticks k (startAnimation p ms result)).settled = [i] ∧
      (ticks k (startAnimation p ms result)).ticker.interval = false ∧
      (ticks k (startAnimation p ms result)).page.items[i]?
        = some { shown := result.selectedMultiplier, active := true } ∧
      (∀ j it, (ticks k (startAnimation p ms result)).page.items[j]? = some it →
        (it.active = true ↔ j = i)) ∧
      (settleTimeout (ticks k (startAnimation p ms result))).page.items
        = (ticks k (startAnimation p ms result)).page.items := by
  have hne : ms ≠ [] := by
    rintro rfl
    simp at hmem
  obtain ⟨e, he, hsel, -⟩ := settleIndex_of_mem ms result.selectedMultiplier hmem
  rw [ticks_after_settle p ms result hne k hk]
  refine ⟨settleIndex ms result.selectedMultiplier, e, he, hsel, rfl, rfl, ?_, ?_,
    settleTimeout_items _⟩
  · have := getElem?_addActive_self ms _ e he
    rw [hsel] at this
    exact this
  · intro j it hj
    obtain ⟨e2, -, -, hact⟩ := getElem?_addActive_freshItems ms _ j it hj
    exact hact

theorem settled_highlight_is_selected_witness :
    (∃ e ∈ duplicateSet, e.multiplier = (2 : ℚ)) ∧ maxCycles * duplicateSet.length ≤ 15 ∧
    ∃ i e, duplicateSet[i]? = some e ∧ e.multiplier = (2 : ℚ) ∧
      (ticks 15 (startAnimation Page.initial duplicateSet ⟨2, 40⟩)).settled = [i] ∧
      (ticks 15 (startAnimation Page.initial duplicateSet ⟨2, 40⟩)).ticker.interval = false ∧
      (ticks 15 (startAnimation Page.initial duplicateSet ⟨2, 40⟩)).page.items[i]?
        = some { shown := (2 : ℚ), active := true } ∧
      (∀ j it, (ticks 15 (startAnimation Page.initial duplicateSet ⟨2, 40⟩)).page.items[j]?
          = some it → (it.active = true ↔ j = i)) ∧
      (settleTimeout (ticks 15 (startAnimation Page.initial duplicateSet ⟨2, 40⟩))).page.items
        = (ticks 15 (startAnimation Page.initial duplicateSet ⟨2, 40⟩)).page.items :=
  ⟨by decide, by decide,
    settled_highlight_is_selected Page.initial duplicateSet ⟨2, 40⟩ 15 (by decide) (by decide)⟩

/-- C2: over a non-empty set, no tick before tick `5 * n` highlights a settle index, and
tick `5 * n` (the Cycling to Settling transition) highlights exactly the smallest index
whose entry has the selected multiplier, or index `0` when no entry has it. -/
theorem settle_index_is_first_match (p : Page) (ms : List MultiplierEntry)
    (result : DrawResult) (hne : ms ≠ []) :
    ∃ i, (ticks (5 * ms.length) (startAnimation p ms result)).settled = [i] ∧
      (∀ k, k < 5 * ms.length → (ticks k (startAnimation p ms result)).settled = []) ∧
      (∀ j it, (ticks (5 * ms.length) (startAnimation p ms result)).page.items[j]? = some it →
        (it.active = true ↔ j = i)) ∧
      i < ms.length ∧
      ((∃ e ∈ ms, e.multiplier = result.selectedMultiplier) →
        (∃ e, ms[i]? = some e ∧ e.multiplier = result.selectedMultiplier) ∧
        ∀ j e2, j < i → ms[j]? = some e2 → e2.multiplier ≠ result.selectedMultiplier) ∧
      ((∀ e ∈ ms, e.multiplier ≠ result.selectedMultiplier) → i = 0) := by
  have h5 : 5 * ms.length = maxCycles * ms.length := rfl
  refine ⟨settleIndex ms result.selectedMultiplier, ?_, ?_, ?_, ?_, ?_, ?_⟩
  · rw [h5, ticks_settle p ms result hne]; rfl
  · intro k hk
    rw [ticks_cycling p ms result hne k (by rw [← h5]; exact hk)]; rfl
  · intro j it hj
    rw [h5, ticks_settle p ms result hne] at hj
    obtain ⟨e2, -, -, hact⟩ := getElem?_addActive_freshItems ms _ j it hj
    exact hact
  · exact settleIndex_lt ms _ hne
  · intro hmem
    obtain ⟨e, he, hsel, hmin⟩ := settleIndex_of_mem ms result.selectedMultiplier hmem
    exact ⟨⟨e, he, hsel⟩, hmin⟩
  · exact settleIndex_of_not_mem ms result.selectedMultiplier

theorem settle_index_is_first_match_witness :
    scenarioSet ≠ [] ∧
    ∃ i, (ticks (5 * scenarioSet.length) (startAnimation Page.initial scenarioSet ⟨2, 40⟩)).settled
        = [i] ∧
      (∀ k, k < 5 * scenarioSet.length →
        (ticks k (startAnimation Page.initial scenarioSet ⟨2, 40⟩)).settled = []) ∧
      (∀ j it, (ticks (5 * scenarioSet.length)
          (startAnimation Page.initial scenarioSet ⟨2, 40⟩)).page.items[j]? = some it →
        (it.active = true ↔ j = i)) ∧
      i < scenarioSet.length ∧
      ((∃ e ∈ scenarioSet, e.multiplier = (2 : ℚ)) →
        (∃ e, scenarioSet[i]? = some e ∧ e.multiplier = (2 : ℚ)) ∧
        ∀ j e2, j < i → scenarioSet[j]? = some e2 → e2.multiplier ≠ (2 : ℚ)) ∧
      ((∀ e ∈ scenarioSet, e.multiplier ≠ (2 : ℚ)) → i = 0) :=
  ⟨by decide, settle_index_is_first_match Page.initial scenarioSet ⟨2, 40⟩ (by decide)⟩

/-- The two examples of C2: over the set `[1, 2, 3]` the settle tick highlights index `1`
for the selected multiplier `2` and index `0` for the absent multiplier `5`. -/
theorem settle_index_examples :
    (ticks 15 (startAnimation Page.initial scenarioSet ⟨2, 40⟩)).settled = [1] ∧
    (ticks 15 (startAnimation Page.initial scenarioSet ⟨2, 40⟩)).page.items.map (·.active)
      = [false, true, false] ∧
    (ticks 15 (startAnimation Page.initial scenarioSet ⟨5, 40⟩)).settled = [0] ∧
    (ticks 15 (startAnimation Page.initial scenarioSet ⟨5, 40⟩)).page.items.map (·.active)
      = [true, false, false] := by
  decide

theorem count_mod_range (n i c : Nat) (hn : 0 < n) (hi : i < n) :
    ((List.range (c * n)).map (· % n)).count i = c := by
  have h := Nat.count_modEq_card (c * n) hn i
  rw [Nat.mul_mod_left, Nat.mul_div_cancel _ hn] at h
  simp only [Nat.not_lt_zero, if_false, Nat.add_zero] at h
  rw [List.count_eq_countP, List.countP_map]
  conv_rhs => rw [← h]
  unfold Nat.count
  apply List.countP_congr
  intro x _
  simp [Nat.ModEq, Nat.mod_eq_of_lt hi]

/-- C3: over every set of `n ≥ 1` entries the tick loop makes exactly `5` full passes
before settling: it enters Settling on tick `5 * n` and on no earlier tick, the cycle
counter (incremented exactly when the position wraps to `0`) is `5` at that moment, and
the cycling highlight has visited every index exactly `5` times. -/
theorem five_full_passes_before_settling (p : Page) (ms : List MultiplierEntry)
    (result : DrawResult) (hne : ms ≠ []) : FivePassesThenSettle p ms result := by
  unfold FivePassesThenSettle
  have h5 : 5 * ms.length = maxCycles * ms.length := rfl
  have hn : 0 < ms.length := List.length_pos.mpr hne
  have hstate : ∀ k, k ≤ 5 * ms.length →
      (ticks k (startAnimation p ms result)).ticker.cycles = k / ms.length ∧
      (ticks k (startAnimation p ms result)).ticker.currentIndex = some (k % ms.length) := by
    intro k hk
    rcases Nat.lt_or_eq_of_le hk with hlt | heq
    · rw [ticks_cycling p ms result hne k (by rw [← h5]; exact hlt)]
      exact ⟨rfl, rfl⟩
    · rw [heq, h5, ticks_settle p ms result hne]
      simp [settledFlow, Nat.mul_div_cancel _ hn]
  refine ⟨?_, hstate, ?_, ?_⟩
  · intro k hk
    rw [ticks_cycling p ms result hne k (by rw [← h5]; exact hk)]
    exact ⟨rfl, rfl, rfl⟩
  · intro k hk
    rw [(hstate (k + 1) hk).1, (hstate k (Nat.le_of_lt hk)).1, (hstate (k + 1) hk).2,
      Nat.succ_div]
    by_cases hd : ms.length ∣ k + 1
    · simp [hd, Nat.mod_eq_zero_of_dvd hd]
    · have : (k + 1) % ms.length ≠ 0 := fun h => hd (Nat.dvd_of_mod_eq_zero h)
      simp [hd, this]
  · rw [h5, ticks_settle p ms result hne]
    refine ⟨rfl, rfl, rfl, rfl, rfl, ?_, ?_⟩
    · simp [settledFlow]
    · intro i hi
      exact count_mod_range ms.length i maxCycles hn hi

theorem five_full_passes_before_settling_witness :
    sevenSet ≠ [] ∧ FivePassesThenSettle Page.initial sevenSet ⟨3, 40⟩ :=
  ⟨by decide, five_full_passes_before_settling Page.initial sevenSet ⟨3, 40⟩ (by decide)⟩

/-- The sizes named in C3, evaluated: sets of 1, 2 and 7 entries are still cycling after
`5 * n - 1` ticks and have settled, the counter at 5, after `5 * n` ticks. -/
theorem five_passes_sizes_1_2_7 :
    (ticks 4 (startAnimation Page.initial [⟨2, some 100⟩] ⟨2, 40⟩)).ticker.interval = true ∧
    (ticks 5 (startAnimation Page.initial [⟨2, some 100⟩] ⟨2, 40⟩)).ticker.interval = false ∧
    (ticks 5 (startAnimation Page.initial [⟨2, some 100⟩] ⟨2, 40⟩)).cycled = [0, 0, 0, 0, 0] ∧
    (ticks 9 (startAnimation Page.initial [⟨1, some 50⟩, ⟨2, some 50⟩] ⟨2, 40⟩)).ticker.interval
      = true ∧
    (ticks 10 (startAnimation Page.initial [⟨1, some 50⟩, ⟨2, some 50⟩] ⟨2, 40⟩)).ticker.interval
      = false ∧
    (ticks 10 (startAnimation Page.initial [⟨1, some 50⟩, ⟨2, some 50⟩] ⟨2, 40⟩)).cycled
      = [0, 1, 0, 1, 0, 1, 0, 1, 0, 1] ∧
    (ticks 34 (startAnimation Page.initial sevenSet ⟨3, 40⟩)).ticker.interval = true ∧
    (ticks 35 (startAnimation Page.initial sevenSet ⟨3, 40⟩)).ticker.interval = false ∧
    (ticks 35 (startAnimation Page.initial sevenSet ⟨3, 40⟩)).ticker.cycles = 5 := by
  decide

/-! ## Invariants of the reachable states -/

theorem tick_activeCount (s : Flow) (h : activeCount s.page.items ≤ 1) :
    activeCount (tick s).page.items ≤ 1 := by
  have h0 := activeCount_removeActive s.page.items
  have h1 : ∀ i, activeCount (addActive (removeActive s.page.items) i) ≤ 1 := fun i =>
    Nat.le_trans (activeCount_addActive_le _ i) (by omega)
  have h2 : ∀ i j, activeCount (addActive
      (removeActive (addActive (removeActive s.page.items) i)) j) ≤ 1 := fun i j =>
    Nat.le_trans (activeCount_addActive_le _ j) (by rw [activeCount_removeActive])
  have h3 : ∀ i, activeCount (removeActive (addActive (removeActive s.page.items) i)) ≤ 1 :=
    fun i => by rw [activeCount_removeActive]; omega
  unfold tick settle
  dsimp only
  repeat' split
  all_goals first
    | exact h
    | exact h1 _
    | exact h2 _ _
    | exact h3 _
    | (simp only [h0]; omega)

theorem tick_frame (s : Flow) :
    (tick s).page.console = s.page.console ∧ (tick s).page.alerts = s.page.alerts ∧
    (tick s).page.fetches = s.page.fetches ∧ (tick s).page.multipliers = s.page.multipliers ∧
    (tick s).page.selectedMultiplier = s.page.selectedMultiplier := by
  unfold tick settle
  dsimp only
  repeat' split
  all_goals exact ⟨rfl, rfl, rfl, rfl, rfl⟩

theorem settleTimeout_frame (s : Flow) :
    (settleTimeout s).page.console = s.page.console ∧
    (settleTimeout s).page.alerts = s.page.alerts ∧
    (settleTimeout s).page.fetches = s.page.fetches ∧
    (settleTimeout s).page.multipliers = s.page.multipliers ∧
    (settleTimeout s).page.selectedMultiplier = s.page.selectedMultiplier := by
  unfold settleTimeout
  split <;> exact ⟨rfl, rfl, rfl, rfl, rfl⟩

theorem reachable_frame (p : Page) (ms : List MultiplierEntry) (result : DrawResult)
    (s : Flow) (h : Reachable p ms result s) :
    s.page.console = p.console ∧ s.page.alerts = p.alerts ∧ s.page.fetches = p.fetches ∧
    s.page.multipliers = ms ∧ s.page.selectedMultiplier = some result.selectedMultiplier := by
  induction h with
  | start => exact ⟨rfl, rfl, rfl, rfl, rfl⟩
  | tick _ ih =>
    obtain ⟨h1, h2, h3, h4, h5⟩ := tick_frame _
    exact ⟨h1.trans ih.1, h2.trans ih.2.1, h3.trans ih.2.2.1, h4.trans ih.2.2.2.1,
      h5.trans ih.2.2.2.2⟩
  | settleTimeout _ ih =>
    obtain ⟨h1, h2, h3, h4, h5⟩ := settleTimeout_frame _
    exact ⟨h1.trans ih.1, h2.trans ih.2.1, h3.trans ih.2.2.1, h4.trans ih.2.2.2.1,
      h5.trans ih.2.2.2.2⟩

theorem reachable_ticks (p : Page) (ms : List MultiplierEntry) (result : DrawResult)
    (k : Nat) : Reachable p ms result (ticks k (startAnimation p ms result)) := by
  induction k with
  | zero => exact Reachable.start
  | succ k ih => rw [ticks_succ]; exact Reachable.tick ih

/-- C4: in every state a flow can reach (before the first tick, after any firing of the
interval, after the settle timeout) at most one item of the multiplier list carries the
`'active'` class. -/
theorem at_most_one_active (p : Page) (ms : List MultiplierEntry) (result : DrawResult)
    (s : Flow) (h : Reachable p ms result s) : activeCount s.page.items ≤ 1 := by
  induction h with
  | start =>
    have h0 : activeCount (startAnimation p ms result).page.items = 0 := by
      have := activeCount_removeActive (freshItems ms)
      rw [removeActive_freshItems] at this
      exact this
    omega
  | tick _ ih => exact tick_activeCount _ ih
  | settleTimeout _ ih => rw [settleTimeout_items]; exact ih

theorem at_most_one_active_witness :
    Reachable Page.initial scenarioSet ⟨2, 40⟩
      (settleTimeout (ticks 15 (startAnimation Page.initial scenarioSet ⟨2, 40⟩))) ∧
    activeCount
      (settleTimeout (ticks 15 (startAnimation Page.initial scenarioSet ⟨2, 40⟩))).page.items
      ≤ 1 :=
  ⟨Reachable.settleTimeout (reachable_ticks _ _ _ 15),
    at_most_one_active Page.initial scenarioSet ⟨2, 40⟩ _
      (Reachable.settleTimeout (reachable_ticks _ _ _ 15))⟩

/-! ## Index safety -/

theorem tick_empty (p : Page) (result : DrawResult) (errs : List JSError) :
    tick { startAnimation p [] result with uncaught := errs }
      = { startAnimation p [] result with uncaught := errs ++ [JSError.typeError] } := by
  simp [tick, startAnimation, animateToSelectedMultiplier, animationPage,
    populateMultipliersListForAnimation, removeActive]

theorem ticks_empty (p : Page) (result : DrawResult) (k : Nat) :
    ticks k (startAnimation p [] result)
      = { startAnimation p [] result with uncaught := List.replicate k JSError.typeError } := by
  induction k with
  | zero => rfl
  | succ k ih => rw [ticks_succ, ih, tick_empty, List.replicate_succ']

/-- C9, the empty set: the list has no item, every firing of the interval reads
`multiplierItems[0]` outside it and throws a `TypeError` out of the callback; the interval
is never cleared, nothing is highlighted and the settle block is never reached. -/
theorem empty_set_every_tick_throws (p : Page) (result : DrawResult) (k : Nat) :
    (startAnimation p [] result).page.items.length = 0 ∧
    (ticks k (startAnimation p [] result)).ticker.currentIndex = some 0 ∧
    (ticks k (startAnimation p [] result)).uncaught = List.replicate k JSError.typeError ∧
    (ticks k (startAnimation p [] result)).ticker.interval = true ∧
    (ticks k (startAnimation p [] result)).ticker.timeout = false ∧
    (ticks k (startAnimation p [] result)).cycled = [] ∧
    (ticks k (startAnimation p [] result)).settled = [] := by
  rw [ticks_empty]
  exact ⟨rfl, rfl, rfl, rfl, rfl, rfl, rfl⟩

/-- Over a non-empty set no callback throws and every index highlighted, while cycling
and when settling, is an index of the list, whether or not the selected multiplier occurs
in the set. -/
theorem highlights_in_bounds_of_nonempty (p : Page) (ms : List MultiplierEntry)
    (result : DrawResult) (hne : ms ≠ []) (k : Nat) :
    (ticks k (startAnimation p ms result)).uncaught = [] ∧
    (ticks k (startAnimation p ms result)).page.items.length = ms.length ∧
    ∀ i, i ∈ (ticks k (startAnimation p ms result)).cycled ++
        (ticks k (startAnimation p ms result)).settled → i < ms.length := by
  have hn : 0 < ms.length := List.length_pos.mpr hne
  have hmods : ∀ m i, i ∈ (List.range m).map (· % ms.length) → i < ms.length := by
    intro m i hi
    obtain ⟨a, -, rfl⟩ := List.mem_map.mp hi
    exact Nat.mod_lt _ hn
  rcases Nat.lt_or_ge k (maxCycles * ms.length) with hk | hk
  · rw [ticks_cycling p ms result hne k hk]
    refine ⟨rfl, ?_, ?_⟩
    · simp only [cyclingFlow, cyclingItems]
      split
      · exact freshItems_length ms
      · rw [addActive_length, freshItems_length]
    · intro i hi
      simp only [cyclingFlow, List.append_nil] at hi
      exact hmods k i hi
  · rw [ticks_after_settle p ms result hne k hk]
    refine ⟨rfl, ?_, ?_⟩
    · simp only [settledFlow]
      rw [addActive_length, freshItems_length]
    · intro i hi
      simp only [settledFlow, List.mem_append, List.mem_singleton] at hi
      rcases hi with hi | rfl
      · exact hmods _ i hi
      · exact settleIndex_lt ms _ hne

theorem highlights_in_bounds_of_nonempty_witness :
    scenarioSet ≠ [] ∧
    (ticks 15 (startAnimation Page.initial scenarioSet ⟨5, 40⟩)).uncaught = [] ∧
    (ticks 15 (startAnimation Page.initial scenarioSet ⟨5, 40⟩)).page.items.length
      = scenarioSet.length ∧
    ∀ i, i ∈ (ticks 15 (startAnimation Page.initial scenarioSet ⟨5, 40⟩)).cycled ++
        (ticks 15 (startAnimation Page.initial scenarioSet ⟨5, 40⟩)).settled →
      i < scenarioSet.length :=
  ⟨by decide, highlights_in_bounds_of_nonempty Page.initial scenarioSet ⟨5, 40⟩ (by decide) 15⟩

/-! ## The outcome mismatch -/

/-- C10 as stated fails: with the set `[1, 2, 3]` and the resolved multiplier `5`, which
no entry has, the animator settles on index `0` and no reachable state of the flow has
anything in the console log, among the alerts or among the uncaught exceptions. -/
theorem mismatch_leaves_no_record :
    (∀ e ∈ scenarioSet, e.multiplier ≠ (5 : ℚ)) ∧
    (ticks 15 (startAnimation Page.initial scenarioSet ⟨5, 40⟩)).settled = [0] ∧
    (settleTimeout (ticks 15 (startAnimation Page.initial scenarioSet ⟨5, 40⟩))).uncaught
      = [] ∧
    ¬ ∃ s, Reachable Page.initial scenarioSet ⟨5, 40⟩ s ∧
      (s.page.console ≠ [] ∨ s.page.alerts ≠ []) := by
  refine ⟨by decide, by decide, by decide, ?_⟩
  rintro ⟨s, hs, hrec⟩
  obtain ⟨hc, ha, -⟩ := reachable_frame _ _ _ s hs
  rcases hrec with h | h
  · exact h hc
  · exact h ha

/-- C10 as amended: over a non-empty set none of whose entries has the resolved
multiplier, the settle tick highlights index `0` without any exception, and in every
reachable state of the flow the console log and the alerts are those of the page before
the flow: the fallback records nothing. -/
theorem mismatch_settles_on_zero_silently (p : Page) (ms : List MultiplierEntry)
    (result : DrawResult) (hne : ms ≠ [])
    (habsent : ∀ e ∈ ms, e.multiplier ≠ result.selectedMultiplier) :
    (ticks (5 * ms.length) (startAnimation p ms result)).settled = [0] ∧
    (ticks (5 * ms.length) (startAnimation p ms result)).uncaught = [] ∧
    (∃ it, (ticks (5 * ms.length) (startAnimation p ms result)).page.items[0]? = some it ∧
      it.active = true) ∧
    ∀ s, Reachable p ms result s →
      s.page.console = p.console ∧ s.page.alerts = p.alerts := by
  have h5 : 5 * ms.length = maxCycles * ms.length := rfl
  have h0 := settleIndex_of_not_mem ms result.selectedMultiplier habsent
  rw [h5, ticks_settle p ms result hne]
  refine ⟨?_, rfl, ?_, ?_⟩
  · simp [settledFlow, h0]
  · cases ms with
    | nil => exact absurd rfl hne
    | cons m rest => exact ⟨⟨m.multiplier, true⟩, by simp [settledFlow, h0, freshItems, addActive]⟩
  · intro s hs
    obtain ⟨hc, ha, -⟩ := reachable_frame p ms result s hs
    exact ⟨hc, ha⟩

theorem mismatch_settles_on_zero_silently_witness :
    scenarioSet ≠ [] ∧ (∀ e ∈ scenarioSet, e.multiplier ≠ (5 : ℚ)) ∧
    (ticks (5 * scenarioSet.length) (startAnimation Page.initial scenarioSet ⟨5, 40⟩)).settled
      = [0] ∧
    (ticks (5 * scenarioSet.length) (startAnimation Page.initial scenarioSet ⟨5, 40⟩)).uncaught
      = [] ∧
    (∃ it, (ticks (5 * scenarioSet.length)
        (startAnimation Page.initial scenarioSet ⟨5, 40⟩)).page.items[0]? = some it ∧
      it.active = true) ∧
    ∀ s, Reachable Page.initial scenarioSet ⟨5, 40⟩ s →
      s.page.console = Page.initial.console ∧ s.page.alerts = Page.initial.alerts :=
  ⟨by decide, by decide,
    mismatch_settles_on_zero_silently Page.initial scenarioSet ⟨5, 40⟩ (by decide) (by decide)⟩

/-! ## `parseInt` on decimal numerals -/

theorem digitChar_facts : ∀ d, d < 10 →
    (Nat.digitChar d).isDigit = true ∧ (Nat.digitChar d).toNat - 48 = d := by
  decide

theorem digitsValue_append_singleton (pre : List Char) (c : Char) :
    digitsValue (pre ++ [c]) = 10 * digitsValue pre + (c.toNat - 48) := by
  simp [digitsValue, List.foldl_append]

theorem toDigitsCore_decimal (fuel : Nat) : ∀ n ds, n < fuel →
    ∃ pre, Nat.toDigitsCore 10 fuel n ds = pre ++ ds ∧ pre ≠ [] ∧
      (∀ c ∈ pre, c.isDigit = true) ∧ digitsValue pre = n := by
  induction fuel with
  | zero => intro n ds h; omega
  | succ fuel ih =>
    intro n ds h
    have hd := digitChar_facts (n % 10) (Nat.mod_lt _ (by decide))
    unfold Nat.toDigitsCore
    dsimp only
    split
    · rename_i h0
      refine ⟨[Nat.digitChar (n % 10)], rfl, by simp, ?_, ?_⟩
      · intro c hc
        rw [List.mem_singleton.mp hc]
        exact hd.1
      · have : digitsValue [Nat.digitChar (n % 10)] = (Nat.digitChar (n % 10)).toNat - 48 := by
          simp [digitsValue]
        rw [this, hd.2]
        omega
    · rename_i h0
      obtain ⟨pre, hpre, -, hdig, hval⟩ :=
        ih (n / 10) (Nat.digitChar (n % 10) :: ds) (by omega)
      refine ⟨pre ++ [Nat.digitChar (n % 10)], ?_, by simp, ?_, ?_⟩
      · rw [hpre]; simp
      · intro c hc
        rcases List.mem_append.mp hc with hc | hc
        · exact hdig c hc
        · rw [List.mem_singleton.mp hc]
          exact hd.1
      · rw [digitsValue_append_singleton, hval, hd.2]
        omega

theorem toString_data_decimal (n : Nat) :
    (toString n).data ≠ [] ∧ (∀ c ∈ (toString n).data, c.isDigit = true) ∧
      digitsValue (toString n).data = n := by
  obtain ⟨pre, hpre, hne, hdig, hval⟩ := toDigitsCore_decimal (n + 1) n [] (by omega)
  have : (toString n).data = pre := by
    show (Nat.toDigits 10 n) = pre
    rw [Nat.toDigits, hpre, List.append_nil]
  rw [this]
  exact ⟨hne, hdig, hval⟩

theorem isDigit_not_space_or_sign (c : Char) (h : c.isDigit = true) :
    isStrWhiteSpaceChar c = false ∧ c ≠ '-' ∧ c ≠ '+' := by
  have h1 : 48 ≤ c.toNat ∧ c.toNat ≤ 57 := by
    simp only [Char.isDigit, Bool.and_eq_true, decide_eq_true_eq] at h
    exact ⟨h.1, h.2⟩
  refine ⟨?_, ?_, ?_⟩
  · simp only [isStrWhiteSpaceChar, decide_eq_false_iff_not, List.mem_cons, List.mem_nil_iff,
      or_false]
    omega
  · rintro rfl
    simp at h1
  · rintro rfl
    simp at h1

theorem droppedBits_of_lt (bits n : Nat) (h : n < 2 ^ 53) : droppedBits bits n = 0 := by
  cases bits with
  | zero => rfl
  | succ b => simp only [droppedBits, if_pos h]

theorem toDouble_of_lt (bits n : Nat) (h : n < 2 ^ 53) : toDouble bits n = some n := by
  have hl : n < doubleLimit := Nat.lt_of_lt_of_le h (by decide)
  simp [toDouble, droppedBits_of_lt bits n h, hl, Nat.mod_one]

theorem parseInt_digits (s : String) (hne : s.data ≠ [])
    (hdig : ∀ c ∈ s.data, c.isDigit = true) :
    parseInt s = match toDouble (4 * s.data.length) (digitsValue s.data) with
      | some v => JSNumber.finite (v : Int)
      | none => JSNumber.infinity false := by
  obtain ⟨c, rest, hs⟩ := List.exists_cons_of_ne_nil hne
  have hc := isDigit_not_space_or_sign c (hdig c (by rw [hs]; simp))
  have htake : List.takeWhile Char.isDigit s.data = s.data := by
    rw [List.takeWhile_eq_self_iff]
    exact hdig
  unfold parseInt
  have hdrop : List.dropWhile isStrWhiteSpaceChar s.data = s.data := by
    rw [hs]; simp [List.dropWhile_cons, hc.1]
  simp only [hdrop]
  rw [hs] at htake ⊢
  simp only [hc.2.1, hc.2.2, or_self, if_false, htake, List.head?_cons, Option.some.injEq]
  simp

theorem parseInt_toString (n : Nat) (h : n ≤ 2 ^ 53) :
    parseInt (toString n) = JSNumber.finite (n : Int) := by
  obtain ⟨hne, hdig, hval⟩ := toString_data_decimal n
  rw [parseInt_digits _ hne hdig, hval]
  rcases Nat.lt_or_eq_of_le h with hlt | heq
  · rw [toDouble_of_lt _ n hlt]
  · subst heq
    have : toDouble (4 * (toString (2 ^ 53)).data.length) (2 ^ 53) = some (2 ^ 53) := by decide
    rw [this]

/-! ## `generateFinalPrice` -/

theorem collectSelectedOptions_checkedItems (doc : Document) (p : Page)
    (cs : List Checkbox) (items : List (Nat × Nat)) (acc : List Selection)
    (hitems : List.Forall₂
      (fun c it => c.value = toString it.1 ∧
        ∃ el, getElementById doc (JSNumber.finite it.1) = some el ∧ el.value = toString it.2)
      cs items)
    (hrange : ∀ it ∈ items, it.1 ≤ 2 ^ 53 ∧ 1 ≤ it.2 ∧ it.2 ≤ 2 ^ 53) :
    collectSelectedOptions doc cs acc p = (p, .ok (acc ++ items.map Selection.ofItem)) := by
  induction hitems generalizing acc with
  | nil => simp [collectSelectedOptions]
  | @cons c it cs items hc _ ih =>
    obtain ⟨hval, el, hel, hq⟩ := hc
    obtain ⟨hk, hq1, hq2⟩ := hrange it (by simp)
    have hopt : parseInt c.value = JSNumber.finite (it.1 : Int) := by
      rw [hval]; exact parseInt_toString it.1 hk
    have hqty : parseInt el.value = JSNumber.finite (it.2 : Int) := by
      rw [hq]; exact parseInt_toString it.2 hq2
    have hok : (isNaN (JSNumber.finite (it.2 : Int)) || ltOne (JSNumber.finite (it.2 : Int)))
        = false := by
      simp only [isNaN, ltOne, Bool.false_or, decide_eq_false_iff_not]
      omega
    unfold collectSelectedOptions
    simp only [hopt, hel, hqty, hok, Bool.false_eq_true, if_false]
    rw [ih _ (fun it2 h2 => hrange it2 (List.mem_cons_of_mem _ h2))]
    simp [Selection.ofItem]

theorem collectSelectedOptions_page (doc : Document) (cs : List Checkbox)
    (acc : List Selection) (p : Page) :
    (collectSelectedOptions doc cs acc p).1
      = { p with alerts := (collectSelectedOptions doc cs acc p).1.alerts } ∧
    ((∃ sel, (collectSelectedOptions doc cs acc p).2 = .ok sel) →
      (collectSelectedOptions doc cs acc p).1 = p) := by
  induction cs generalizing acc with
  | nil => exact ⟨rfl, fun _ => rfl⟩
  | cons c rest ih =>
    unfold collectSelectedOptions
    dsimp only
    split
    · exact ⟨rfl, fun _ => rfl⟩
    · split
      · refine ⟨rfl, ?_⟩
        rintro ⟨sel, hsel⟩
        cases hsel
      · exact ih _

/-- C5 as stated fails: option 1 is checked with the integer quantity `2 ^ 53 + 1` typed
in its field, and the request carries the quantity `2 ^ 53`. -/
theorem large_quantity_is_rounded :
    CheckedItems largeQuantityDocument [(1, 9007199254740993)] ∧
    generateFinalPrice largeQuantityDocument Page.initial =
      ({ Page.initial with animationSection := .block, resultSection := .hidden,
                           fetches := [Fetch.getMultipliers] },
        Completion.started [⟨JSNumber.finite 1, JSNumber.finite 9007199254740992⟩]) ∧
    JSNumber.finite 9007199254740992 ≠ JSNumber.finite 9007199254740993 := by
  refine ⟨?_, by decide, by decide⟩
  exact List.Forall₂.cons ⟨by decide, ⟨JSNumber.finite 1, "9007199254740993"⟩, by decide,
    by decide⟩ List.Forall₂.nil

/-- C5 as amended: when the checked checkboxes are, in order, those of a non-empty list
of items whose option numbers are at most `2 ^ 53` and whose quantity fields hold the
decimal numerals of integers between `1` and `2 ^ 53`, `generateFinalPrice` shows the
animation section, hides the result section and calls `startMultiplierAnimation` with a
request that has one entry per checked checkbox, in the same order, entry `i` carrying the
option number and exactly the quantity of item `i`. -/
theorem request_carries_checked_items (doc : Document) (p : Page) (items : List (Nat × Nat))
    (hne : items ≠ []) (hitems : CheckedItems doc items)
    (hrange : ∀ it ∈ items, it.1 ≤ 2 ^ 53 ∧ 1 ≤ it.2 ∧ it.2 ≤ 2 ^ 53) :
    generateFinalPrice doc p =
      ({ p with animationSection := .block, resultSection := .hidden,
                fetches := p.fetches ++ [Fetch.getMultipliers] },
        Completion.started (items.map Selection.ofItem)) ∧
    (items.map Selection.ofItem).length = (doc.checkboxes.filter fun c => c.checked).length ∧
    ∀ (i : Nat) (it : Nat × Nat), items[i]? = some it →
      (items.map Selection.ofItem)[i]?
        = some (Selection.mk (JSNumber.finite it.1) (JSNumber.finite it.2)) := by
  have hlen := List.Forall₂.length_eq hitems
  have hpos : (doc.checkboxes.filter fun c => c.checked).length ≠ 0 := by
    rw [hlen]
    exact fun h => hne (List.length_eq_zero.mp h)
  refine ⟨?_, ?_, ?_⟩
  · unfold generateFinalPrice
    dsimp only
    rw [if_neg hpos, collectSelectedOptions_checkedItems doc p _ items [] hitems hrange]
    simp [startMultiplierAnimation]
  · rw [List.length_map, hlen]
  · intro i it hi
    simp [List.getElem?_map, hi, Selection.ofItem]

theorem request_carries_checked_items_witness :
    [((1 : Nat), (2 : Nat)), (2, 5)] ≠ [] ∧ CheckedItems validDocument [(1, 2), (2, 5)] ∧
    (∀ it ∈ [((1 : Nat), (2 : Nat)), (2, 5)], it.1 ≤ 2 ^ 53 ∧ 1 ≤ it.2 ∧ it.2 ≤ 2 ^ 53) ∧
    (generateFinalPrice validDocument Page.initial =
      ({ Page.initial with animationSection := .block, resultSection := .hidden,
                           fetches := Page.initial.fetches ++ [Fetch.getMultipliers] },
        Completion.started ([((1 : Nat), (2 : Nat)), (2, 5)].map Selection.ofItem)) ∧
    ([((1 : Nat), (2 : Nat)), (2, 5)].map Selection.ofItem).length
      = (validDocument.checkboxes.filter fun c => c.checked).length ∧
    ∀ (i : Nat) (it : Nat × Nat), [((1 : Nat), (2 : Nat)), (2, 5)][i]? = some it →
      ([((1 : Nat), (2 : Nat)), (2, 5)].map Selection.ofItem)[i]?
        = some (Selection.mk (JSNumber.finite it.1) (JSNumber.finite it.2))) :=
  have hitems : CheckedItems validDocument [(1, 2), (2, 5)] :=
    List.Forall₂.cons ⟨by decide, ⟨JSNumber.finite 1, "2"⟩, by decide, by decide⟩
      (List.Forall₂.cons ⟨by decide, ⟨JSNumber.finite 2, "5"⟩, by decide, by decide⟩
        List.Forall₂.nil)
  ⟨by decide, hitems, by decide,
    request_carries_checked_items validDocument Page.initial [(1, 2), (2, 5)] (by decide)
      hitems (by decide)⟩

/-- C6: when no checkbox is checked `generateFinalPrice` raises the "select at least one
sales option" alert and returns; `startMultiplierAnimation` is not called, no fetch is
issued and nothing else of the page changes. -/
theorem empty_selection_is_reported (doc : Document) (p : Page)
    (hempty : (doc.checkboxes.filter fun c => c.checked) = []) :
    generateFinalPrice doc p
      = ({ p with alerts := p.alerts ++ [Alert.selectAtLeastOne] }, Completion.returned) ∧
    (∀ sel, (generateFinalPrice doc p).2 ≠ Completion.started sel) ∧
    (generateFinalPrice doc p).1.fetches = p.fetches := by
  have h : generateFinalPrice doc p
      = ({ p with alerts := p.alerts ++ [Alert.selectAtLeastOne] }, Completion.returned) := by
    simp [generateFinalPrice, hempty]
  rw [h]
  exact ⟨rfl, fun sel hsel => by simp at hsel, rfl⟩

theorem empty_selection_is_reported_witness :
    (emptyDocument.checkboxes.filter fun c => c.checked) = [] ∧
    (generateFinalPrice emptyDocument Page.initial
      = ({ Page.initial with alerts := Page.initial.alerts ++ [Alert.selectAtLeastOne] },
          Completion.returned) ∧
    (∀ sel, (generateFinalPrice emptyDocument Page.initial).2 ≠ Completion.started sel) ∧
    (generateFinalPrice emptyDocument Page.initial).1.fetches = Page.initial.fetches) :=
  ⟨by decide, empty_selection_is_reported emptyDocument Page.initial (by decide)⟩

/-- C7, the quantity `1e-3`: the field of the checked option 1 holds a number below `1`,
yet `parseInt` reads it as `1`, no alert is raised, nothing is thrown and the request
`[{optionNumber: 1, quantity: 1}]` is passed on to `startMultiplierAnimation`. -/
theorem exponent_quantity_is_accepted :
    parseInt "1e-3" = JSNumber.finite 1 ∧
    generateFinalPrice exponentDocument Page.initial =
      ({ Page.initial with animationSection := .block, resultSection := .hidden,
                           fetches := [Fetch.getMultipliers] },
        Completion.started [⟨JSNumber.finite 1, JSNumber.finite 1⟩]) := by
  decide

/-- What the validation of `generateFinalPrice` does reject: when the first checked
checkbox whose quantity field `parseInt` reads as `NaN` or as a number below `1` comes
after checkboxes whose fields it reads as numbers of at least `1`, the alert names the
option number of that checkbox, the error thrown names it too, and nothing else of the
page changes. -/
theorem first_invalid_parsed_quantity_is_rejected (doc : Document) (p : Page)
    (before : List Checkbox) (c : Checkbox) (after : List Checkbox) (el : QuantityInput)
    (hchecked : (doc.checkboxes.filter fun c => c.checked) = before ++ c :: after)
    (hbefore : ∀ d ∈ before, ∃ e, getElementById doc (parseInt d.value) = some e ∧
      (isNaN (parseInt e.value) || ltOne (parseInt e.value)) = false)
    (hel : getElementById doc (parseInt c.value) = some el)
    (hbad : (isNaN (parseInt el.value) || ltOne (parseInt el.value)) = true) :
    generateFinalPrice doc p =
      ({ p with alerts := p.alerts ++ [Alert.invalidQuantity (parseInt c.value)] },
        Completion.threw (JSError.invalidQuantity (parseInt c.value))) := by
  have hloop : ∀ (pre : List Checkbox) (acc : List Selection),
      (∀ d ∈ pre, ∃ e, getElementById doc (parseInt d.value) = some e ∧
        (isNaN (parseInt e.value) || ltOne (parseInt e.value)) = false) →
      collectSelectedOptions doc (pre ++ c :: after) acc p =
        ({ p with alerts := p.alerts ++ [Alert.invalidQuantity (parseInt c.value)] },
          .error (JSError.invalidQuantity (parseInt c.value))) := by
    intro pre
    induction pre with
    | nil =>
      intro acc _
      simp only [List.nil_append, collectSelectedOptions, hel, hbad, if_true]
    | cons d rest ih =>
      intro acc hpre
      obtain ⟨e, he, hok⟩ := hpre d (by simp)
      simp only [List.cons_append, collectSelectedOptions, he, hok, Bool.false_eq_true,
        if_false]
      exact ih _ (fun d2 h2 => hpre d2 (List.mem_cons_of_mem _ h2))
  unfold generateFinalPrice
  simp only [hchecked, List.length_append, List.length_cons]
  rw [if_neg (by omega), hloop before [] hbefore]

theorem first_invalid_parsed_quantity_is_rejected_witness :
    generateFinalPrice invalidSecondDocument Page.initial =
      ({ Page.initial with
          alerts := Page.initial.alerts ++ [Alert.invalidQuantity (parseInt "2")] },
        Completion.threw (JSError.invalidQuantity (parseInt "2"))) :=
  first_invalid_parsed_quantity_is_rejected invalidSecondDocument Page.initial
    [⟨"1", true⟩] ⟨"2", true⟩ [] ⟨JSNumber.finite 2, "0"⟩ (by decide)
    (by intro d hd; rw [List.mem_singleton.mp hd]; exact ⟨⟨JSNumber.finite 1, "2"⟩, by decide,
      by decide⟩)
    (by decide) (by decide)

/-- C8: whenever `generateFinalPrice` does not get to `startMultiplierAnimation` (it
returns on an empty selection, or it throws at a checkbox at any position), no fetch has
been issued and the module-level `multipliers` and `selectedMultiplier`, the display of
the animation and result sections, the multiplier list and the shown total are those of
the page before the call; only the list of alerts differs. -/
theorem failed_validation_leaves_page (doc : Document) (p : Page)
    (hfail : (generateFinalPrice doc p).2 = Completion.returned ∨
      ∃ e, (generateFinalPrice doc p).2 = Completion.threw e) :
    (generateFinalPrice doc p).1.fetches = p.fetches ∧
    (generateFinalPrice doc p).1.multipliers = p.multipliers ∧
    (generateFinalPrice doc p).1.selectedMultiplier = p.selectedMultiplier ∧
    (generateFinalPrice doc p).1.animationSection = p.animationSection ∧
    (generateFinalPrice doc p).1.resultSection = p.resultSection ∧
    (generateFinalPrice doc p).1.items = p.items ∧
    (generateFinalPrice doc p).1.totalFinalPrice = p.totalFinalPrice ∧
    (generateFinalPrice doc p).1.console = p.console := by
  have hpage := (collectSelectedOptions_page doc
    (doc.checkboxes.filter fun c => c.checked) [] p).1
  revert hfail
  unfold generateFinalPrice
  dsimp only
  split
  · intro _
    exact ⟨rfl, rfl, rfl, rfl, rfl, rfl, rfl, rfl⟩
  · split
    · rename_i p1 e heq
      intro _
      rw [heq] at hpage
      dsimp only at hpage
      rw [hpage]
      exact ⟨rfl, rfl, rfl, rfl, rfl, rfl, rfl, rfl⟩
    · intro hfail
      rcases hfail with h | ⟨e, h⟩ <;> cases h

theorem failed_validation_leaves_page_witness :
    ((generateFinalPrice invalidSecondDocument Page.initial).2 = Completion.returned ∨
      ∃ e, (generateFinalPrice invalidSecondDocument Page.initial).2 = Completion.threw e) ∧
    ((generateFinalPrice invalidSecondDocument Page.initial).1.fetches = Page.initial.fetches ∧
    (generateFinalPrice invalidSecondDocument Page.initial).1.multipliers
      = Page.initial.multipliers ∧
    (generateFinalPrice invalidSecondDocument Page.initial).1.selectedMultiplier
      = Page.initial.selectedMultiplier ∧
    (generateFinalPrice invalidSecondDocument Page.initial).1.animationSection
      = Page.initial.animationSection ∧
    (generateFinalPrice invalidSecondDocument Page.initial).1.resultSection
      = Page.initial.resultSection ∧
    (generateFinalPrice invalidSecondDocument Page.initial).1.items = Page.initial.items ∧
    (generateFinalPrice invalidSecondDocument Page.initial).1.totalFinalPrice
      = Page.initial.totalFinalPrice ∧
    (generateFinalPrice invalidSecondDocument Page.initial).1.console
      = Page.initial.console) :=
  ⟨Or.inr ⟨JSError.invalidQuantity (JSNumber.finite 2), by decide⟩,
    failed_validation_leaves_page invalidSecondDocument Page.initial
      (Or.inr ⟨JSError.invalidQuantity (JSNumber.finite 2), by decide⟩)⟩

/-! ## The result shown at Done -/

theorem settleTimeout_calls (s : Flow) :
    (displayResultsCalls s = [s.ticker.result] ∧
      (settleTimeout s).page
        = displayResults { s.page with animationSection := .hidden } s.ticker.result ∧
      (settleTimeout s).ticker.timeout = false) ∨
    (displayResultsCalls s = [] ∧ settleTimeout s = s) := by
  unfold displayResultsCalls settleTimeout
  by_cases h : s.ticker.timeout = true
  · left
    simp [h]
  · right
    simp [h]

theorem settleTimeout_settledFlow_done (p : Page) (ms : List MultiplierEntry)
    (result : DrawResult) :
    tick (settleTimeout (settledFlow p ms result)) = settleTimeout (settledFlow p ms result) ∧
    settleTimeout (settleTimeout (settledFlow p ms result))
      = settleTimeout (settledFlow p ms result) ∧
    displayResultsCalls (settleTimeout (settledFlow p ms result)) = [] ∧
    displayResultsCalls (settledFlow p ms result) = [result] := by
  refine ⟨?_, ?_, ?_, ?_⟩ <;> simp [tick, settleTimeout, settledFlow, displayResultsCalls]

theorem fire_invariant (p : Page) (ms : List MultiplierEntry) (result : DrawResult)
    (hne : ms ≠ []) (e : TimerEvent) (s : Flow × List DrawResult)
    (h : (∃ k, s = (ticks k (startAnimation p ms result), [])) ∨
      s = (settleTimeout (settledFlow p ms result), [result])) :
    (∃ k, fire s e = (ticks k (startAnimation p ms result), [])) ∨
      fire s e = (settleTimeout (settledFlow p ms result), [result]) := by
  obtain ⟨hd1, hd2, hd3, hd4⟩ := settleTimeout_settledFlow_done p ms result
  rcases h with ⟨k, rfl⟩ | rfl
  · cases e with
    | interval => exact Or.inl ⟨k + 1, by simp [fire, ticks_succ]⟩
    | timeout =>
      rcases Nat.lt_or_ge k (maxCycles * ms.length) with hk | hk
      · left
        refine ⟨k, ?_⟩
        rw [ticks_cycling p ms result hne k hk]
        simp [fire, settleTimeout, displayResultsCalls, cyclingFlow]
      · right
        rw [ticks_after_settle p ms result hne k hk]
        simp [fire, hd4]
  · right
    cases e with
    | interval => simp [fire, hd1]
    | timeout => simp [fire, hd2, hd3]

theorem fireAll_invariant (p : Page) (ms : List MultiplierEntry) (result : DrawResult)
    (hne : ms ≠ []) (events : List TimerEvent) (s : Flow × List DrawResult)
    (h : (∃ k, s = (ticks k (startAnimation p ms result), [])) ∨
      s = (settleTimeout (settledFlow p ms result), [result])) :
    (∃ k, fireAll events s = (ticks k (startAnimation p ms result), [])) ∨
      fireAll events s = (settleTimeout (settledFlow p ms result), [result]) := by
  induction events generalizing s with
  | nil => exact h
  | cons e es ih => exact ih (fire s e) (fire_invariant p ms result hne e s h)

theorem ticks_not_done (p : Page) (ms : List MultiplierEntry) (result : DrawResult)
    (hne : ms ≠ []) (k : Nat) : (ticks k (startAnimation p ms result)).done = false := by
  rcases Nat.lt_or_ge k (maxCycles * ms.length) with hk | hk
  · rw [ticks_cycling p ms result hne k hk]
    simp [Flow.done, cyclingFlow]
  · rw [ticks_after_settle p ms result hne k hk]
    simp [Flow.done, settledFlow]

theorem fireAll_ticks (k : Nat) (s : Flow) (calls : List DrawResult) :
    fireAll (List.replicate k TimerEvent.interval) (s, calls) = (ticks k s, calls) := by
  induction k generalizing s with
  | zero => rfl
  | succ k ih => simp [List.replicate_succ, fireAll, fire, ih, ticks]

/-- C12: over a non-empty set, whatever the order and number of timer firings,
`displayResults` has been called never or once, and with the result of the draw itself;
the flow is in Done exactly when it has been called once, and then the settle block has
run before, the interval is cleared, the animation section is hidden, the result section
is shown and the total written is `result.totalFinalPrice`, whatever the set, the number
of ticks and the settle index. Done is reached: `5 * n` ticks and the timeout do it. -/
theorem displayResults_once_with_draw_result (p : Page) (ms : List MultiplierEntry)
    (result : DrawResult) (hne : ms ≠ []) (events : List TimerEvent) :
    ((fireAll events (startAnimation p ms result, [])).2 = [] ∨
      (fireAll events (startAnimation p ms result, [])).2 = [result]) ∧
    ((fireAll events (startAnimation p ms result, [])).1.done = true ↔
      (fireAll events (startAnimation p ms result, [])).2 = [result]) ∧
    ((fireAll events (startAnimation p ms result, [])).2 = [result] →
      (fireAll events (startAnimation p ms result, [])).1.settled
        = [settleIndex ms result.selectedMultiplier] ∧
      (fireAll events (startAnimation p ms result, [])).1.ticker.interval = false ∧
      (fireAll events (startAnimation p ms result, [])).1.page.animationSection = .hidden ∧
      (fireAll events (startAnimation p ms result, [])).1.page.resultSection = .block ∧
      (fireAll events (startAnimation p ms result, [])).1.page.totalFinalPrice
        = some result.totalFinalPrice) ∧
    (fireAll (List.replicate (5 * ms.length) TimerEvent.interval ++ [TimerEvent.timeout])
      (startAnimation p ms result, [])).2 = [result] := by
  have hinv := fireAll_invariant p ms result hne events (startAnimation p ms result, [])
    (Or.inl ⟨0, rfl⟩)
  refine ⟨?_, ?_, ?_, ?_⟩
  · rcases hinv with ⟨k, hk⟩ | hd
    · rw [hk]; exact Or.inl rfl
    · rw [hd]; exact Or.inr rfl
  · rcases hinv with ⟨k, hk⟩ | hd
    · rw [hk]
      simp [ticks_not_done p ms result hne k]
    · rw [hd]
      simp [Flow.done, settleTimeout, settledFlow]
  · intro hcalls
    rcases hinv with ⟨k, hk⟩ | hd
    · rw [hk] at hcalls
      simp at hcalls
    · rw [hd]
      simp [settleTimeout, settledFlow, displayResults, animationPage,
        populateMultipliersListForAnimation]
  · have h5 : 5 * ms.length = maxCycles * ms.length := rfl
    have happ : ∀ (es : List TimerEvent) (s : Flow × List DrawResult),
        fireAll (es ++ [TimerEvent.timeout]) s = fire (fireAll es s) TimerEvent.timeout := by
      intro es
      induction es with
      | nil => intro s; rfl
      | cons e es ih => intro s; exact ih (fire s e)
    rw [happ, fireAll_ticks, h5, ticks_settle p ms result hne]
    simp [fire, displayResultsCalls, settledFlow]

theorem displayResults_once_with_draw_result_witness :
    scenarioSet ≠ [] ∧
    (((fireAll [TimerEvent.timeout, TimerEvent.interval]
        (startAnimation Page.initial scenarioSet ⟨2, 40⟩, [])).2 = [] ∨
      (fireAll [TimerEvent.timeout, TimerEvent.interval]
        (startAnimation Page.initial scenarioSet ⟨2, 40⟩, [])).2 = [⟨2, 40⟩]) ∧
    ((fireAll [TimerEvent.timeout, TimerEvent.interval]
        (startAnimation Page.initial scenarioSet ⟨2, 40⟩, [])).1.done = true ↔
      (fireAll [TimerEvent.timeout, TimerEvent.interval]
        (startAnimation Page.initial scenarioSet ⟨2, 40⟩, [])).2 = [⟨2, 40⟩]) ∧
    ((fireAll [TimerEvent.timeout, TimerEvent.interval]
        (startAnimation Page.initial scenarioSet ⟨2, 40⟩, [])).2 = [⟨2, 40⟩] →
      (fireAll [TimerEvent.timeout, TimerEvent.interval]
        (startAnimation Page.initial scenarioSet ⟨2, 40⟩, [])).1.settled
        = [settleIndex scenarioSet (2 : ℚ)] ∧
      (fireAll [TimerEvent.timeout, TimerEvent.interval]
        (startAnimation Page.initial scenarioSet ⟨2, 40⟩, [])).1.ticker.interval = false ∧
      (fireAll [TimerEvent.timeout, TimerEvent.interval]
        (startAnimation Page.initial scenarioSet ⟨2, 40⟩, [])).1.page.animationSection
        = .hidden ∧
      (fireAll [TimerEvent.timeout, TimerEvent.interval]
        (startAnimation Page.initial scenarioSet ⟨2, 40⟩, [])).1.page.resultSection = .block ∧
      (fireAll [TimerEvent.timeout, TimerEvent.interval]
        (startAnimation Page.initial scenarioSet ⟨2, 40⟩, [])).1.page.totalFinalPrice
        = some (40 : ℚ)) ∧
    (fireAll (List.replicate (5 * scenarioSet.length) TimerEvent.interval
        ++ [TimerEvent.timeout])
      (startAnimation Page.initial scenarioSet ⟨2, 40⟩, [])).2 = [⟨2, 40⟩]) :=
  ⟨by decide,
    displayResults_once_with_draw_result Page.initial scenarioSet ⟨2, 40⟩ (by decide)
      [TimerEvent.timeout, TimerEvent.interval]⟩

/-- The scenario of the specification, run to Done: the set `[1, 2, 3]`, the draw
`{selectedMultiplier: 2, totalFinalPrice: 40}`, fifteen ticks and the timeout; item 1 is
highlighted, `displayResults` has been called once with the draw result and the total
written is `40`. -/
theorem scenario_runs_to_done :
    (fireAll (List.replicate 15 TimerEvent.interval ++ [TimerEvent.timeout])
      (startAnimation Page.initial scenarioSet ⟨2, 40⟩, [])).2 = [⟨2, 40⟩] ∧
    (fireAll (List.replicate 15 TimerEvent.interval ++ [TimerEvent.timeout])
      (startAnimation Page.initial scenarioSet ⟨2, 40⟩, [])).1.done = true ∧
    (fireAll (List.replicate 15 TimerEvent.interval ++ [TimerEvent.timeout])
      (startAnimation Page.initial scenarioSet ⟨2, 40⟩, [])).1.settled = [1] ∧
    (fireAll (List.replicate 15 TimerEvent.interval ++ [TimerEvent.timeout])
      (startAnimation Page.initial scenarioSet ⟨2, 40⟩, [])).1.page.totalFinalPrice
      = some (40 : ℚ) := by
  decide

/-! ## Concurrent flows -/

theorem mapEntries_scenario : mapEntries scenarioSettings.multipliers 0
    scenarioSettings.probabilities = scenarioSet := by
  decide

/-- C13 as stated fails: a second trigger is accepted while the first flow is cycling
(its interval set, one tick done), and once the second draw has arrived two intervals are
set over the same multiplier list; the same happens when the second trigger comes while
the first flow still waits for its fetch. -/
theorem second_flow_starts_while_cycling :
    (∃ s, run [Event.trigger validDocument, Event.multipliersArrive 0 scenarioSettings,
          Event.resultArrives 0 ⟨2, 40⟩, Event.tick 0] System.initial = some s ∧
        activeLoops s = 1 ∧ s.loops.map (fun l => l.ticker.timeout) = [false]) ∧
    (∃ s2, run [Event.trigger validDocument, Event.multipliersArrive 0 scenarioSettings,
          Event.resultArrives 0 ⟨2, 40⟩, Event.tick 0, Event.trigger validDocument,
          Event.multipliersArrive 1 scenarioSettings, Event.resultArrives 1 ⟨3, 60⟩,
          Event.tick 0, Event.tick 1] System.initial = some s2 ∧
        activeLoops s2 = 2 ∧ s2.loops.map (fun l => l.origin) = [0, 1]) ∧
    ∃ s3, run [Event.trigger validDocument, Event.trigger validDocument,
          Event.multipliersArrive 0 scenarioSettings, Event.multipliersArrive 1 scenarioSettings,
          Event.resultArrives 0 ⟨2, 40⟩, Event.resultArrives 1 ⟨3, 60⟩,
          Event.tick 0, Event.tick 1] System.initial = some s3 ∧
        activeLoops s3 = 2 ∧ s3.loops.map (fun l => l.origin) = [0, 1] := by
  refine ⟨⟨_, rfl, ?_, ?_⟩, ⟨_, rfl, ?_, ?_⟩, ⟨_, rfl, ?_, ?_⟩⟩ <;> decide

theorem generateFinalPrice_fetches (doc : Document) (p : Page) :
    (generateFinalPrice doc p).1.fetches =
      match (generateFinalPrice doc p).2 with
      | Completion.started _ => p.fetches ++ [Fetch.getMultipliers]
      | _ => p.fetches := by
  have hpage := collectSelectedOptions_page doc (doc.checkboxes.filter fun c => c.checked) [] p
  unfold generateFinalPrice
  dsimp only
  split
  · rfl
  · split
    · rename_i p1 e heq
      rw [heq] at hpage
      have h1 := hpage.1
      dsimp only at h1
      rw [h1]
    · rename_i p1 sel heq
      rw [heq] at hpage
      have h2 := hpage.2 ⟨sel, rfl⟩
      dsimp only at h2
      simp [startMultiplierAnimation, h2]

theorem chainStage_set_of_ne (s : System) (i k : Nat) (c c2 : Chain) (stage : Stage)
    (hi : s.chains[i]? = some c) (hne : c.stage ≠ stage)
    (hk : s.chainStage k stage) :
    ∃ ck, (s.chains.set i c2)[k]? = some ck ∧ ck.stage = stage := by
  obtain ⟨ck, hck, hst⟩ := hk
  have hik : i ≠ k := by
    rintro rfl
    rw [hi] at hck
    cases hck
    exact hne hst
  exact ⟨ck, by rw [List.getElem?_set_ne hik]; exact hck, hst⟩

theorem chainStage_append (s : System) (k : Nat) (c2 : Chain) (stage : Stage)
    (hk : s.chainStage k stage) :
    ∃ ck, (s.chains ++ [c2])[k]? = some ck ∧ ck.stage = stage := by
  obtain ⟨ck, hck, hst⟩ := hk
  have hlt : k < s.chains.length := (List.getElem?_eq_some.mp hck).1
  exact ⟨ck, by rw [List.getElem?_append_left hlt]; exact hck, hst⟩

theorem putFlow_facts (s : System) (j : Nat) (l : Loop) (f : Flow)
    (hj : s.loops[j]? = some l) (hf : f.page.fetches = s.page.fetches) :
    (s.putFlow j l.origin f).chains = s.chains ∧
    (s.putFlow j l.origin f).displayCalls = s.displayCalls ∧
    (s.putFlow j l.origin f).page.fetches = s.page.fetches ∧
    ((s.putFlow j l.origin f).loops.map fun l => l.origin) = (s.loops.map fun l => l.origin) ∧
    (s.putFlow j l.origin f).loops.length = s.loops.length := by
  refine ⟨rfl, rfl, hf, ?_, by simp [System.putFlow]⟩
  simp only [System.putFlow, List.map_set]
  apply List.ext_getElem?
  intro k
  by_cases hjk : j = k
  · subst hjk
    have hlt : j < s.loops.length := (List.getElem?_eq_some.mp hj).1
    rw [List.getElem?_set_self (by simpa using hlt)]
    simp [List.getElem?_map, hj]
  · rw [List.getElem?_set_ne hjk]

theorem step_consistent (s s1 : System) (e : Event) (hstep : step s e = some s1)
    (h : s.Consistent) : s1.Consistent := by
  obtain ⟨hloops, hcalls, hnodup, hcount⟩ := h
  cases e with
  | trigger doc =>
    have hf := generateFinalPrice_fetches doc s.page
    simp only [step] at hstep
    split at hstep
    · rename_i p sel heq
      rw [heq] at hf
      cases hstep
      refine ⟨fun l hl => chainStage_append s _ _ _ (hloops l hl),
        fun d hd => chainStage_append s _ _ _ (hcalls d hd), hnodup, ?_⟩
      dsimp only at hf ⊢
      rw [hf]
      simp [hcount]
    · rename_i p heq
      rw [heq] at hf
      cases hstep
      refine ⟨hloops, hcalls, hnodup, ?_⟩
      dsimp only at hf ⊢
      rw [hf, hcount]
    · rename_i p err heq
      rw [heq] at hf
      cases hstep
      refine ⟨hloops, hcalls, hnodup, ?_⟩
      dsimp only at hf ⊢
      rw [hf, hcount]
  | multipliersArrive i settings =>
    simp only [step] at hstep
    split at hstep
    · rename_i c hc
      split at hstep
      · rename_i hst
        cases hstep
        have hne : c.stage ≠ Stage.animating := by rw [hst]; decide
        refine ⟨fun l hl => chainStage_set_of_ne s i _ c _ _ hc hne (hloops l hl),
          fun d hd => chainStage_set_of_ne s i _ c _ _ hc hne (hcalls d hd), hnodup, ?_⟩
        simp [onMultipliers, populateMultipliersListForAnimation, hcount]
      · cases hstep
    · cases hstep
  | multipliersFail i =>
    simp only [step] at hstep
    split at hstep
    · rename_i c hc
      split at hstep
      · rename_i hst
        cases hstep
        have hne : c.stage ≠ Stage.animating := by rw [hst]; decide
        refine ⟨fun l hl => chainStage_set_of_ne s i _ c _ _ hc hne (hloops l hl),
          fun d hd => chainStage_set_of_ne s i _ c _ _ hc hne (hcalls d hd), hnodup, ?_⟩
        simp [onError, hcount]
      · cases hstep
    · cases hstep
  | resultFails i =>
    simp only [step] at hstep
    split at hstep
    · rename_i c hc
      split at hstep
      · rename_i hst
        cases hstep
        have hne : c.stage ≠ Stage.animating := by rw [hst]; decide
        refine ⟨fun l hl => chainStage_set_of_ne s i _ c _ _ hc hne (hloops l hl),
          fun d hd => chainStage_set_of_ne s i _ c _ _ hc hne (hcalls d hd), hnodup, ?_⟩
        simp [onError, hcount]
      · cases hstep
    · cases hstep
  | resultArrives i result =>
    simp only [step] at hstep
    split at hstep
    · rename_i c hc
      split at hstep
      · rename_i hst
        cases hstep
        have hne : c.stage ≠ Stage.animating := by rw [hst]; decide
        have hlt : i < s.chains.length := (List.getElem?_eq_some.mp hc).1
        have hnew : ∃ ck, (s.chains.set i { c with stage := Stage.animating })[i]? = some ck ∧
            ck.stage = Stage.animating :=
          ⟨_, List.getElem?_set_self hlt, rfl⟩
        have hfresh : i ∉ s.loops.map fun l => l.origin := by
          intro hmem
          obtain ⟨l, hl, rfl⟩ := List.mem_map.mp hmem
          obtain ⟨ck, hck, hs⟩ := hloops l hl
          rw [hc] at hck
          cases hck
          exact hne hs
        refine ⟨?_, fun d hd => chainStage_set_of_ne s i _ c _ _ hc hne (hcalls d hd), ?_, ?_⟩
        · intro l hl
          rcases List.mem_append.mp hl with hl | hl
          · exact chainStage_set_of_ne s i _ c _ _ hc hne (hloops l hl)
          · rw [List.mem_singleton.mp hl]
            exact hnew
        · simp only [List.map_append, List.map_cons, List.map_nil]
          exact List.nodup_append.mpr ⟨hnodup, List.nodup_singleton _, by
            intro a ha hb
            rw [List.mem_singleton.mp hb] at ha
            exact hfresh ha⟩
        · simp [onResult, animateToSelectedMultiplier, hcount]
      · cases hstep
    · cases hstep
  | tick j =>
    simp only [step] at hstep
    split at hstep
    · rename_i l hl
      split at hstep
      · cases hstep
        obtain ⟨h1, h2, h3, h4, -⟩ := putFlow_facts s j l (tick (l.flow s)) hl
          (tick_frame (l.flow s)).2.2.1
        have horigin := hloops l (List.getElem?_mem hl)
        refine ⟨?_, ?_, by rw [h4]; exact hnodup, by rw [h1, h3]; exact hcount⟩
        · intro l2 hl2
          unfold System.chainStage
          rw [h1]
          rcases List.mem_or_eq_of_mem_set hl2 with hl2 | rfl
          · exact hloops l2 hl2
          · exact horigin
        · intro d hd
          unfold System.chainStage
          rw [h1]
          exact hcalls d (by rw [h2] at hd; exact hd)
      · cases hstep
    · cases hstep
  | timeout j =>
    simp only [step] at hstep
    split at hstep
    · rename_i l hl
      split at hstep
      · cases hstep
        obtain ⟨h1, h2, h3, h4, -⟩ := putFlow_facts s j l (settleTimeout (l.flow s)) hl
          (settleTimeout_frame (l.flow s)).2.2.1
        have horigin := hloops l (List.getElem?_mem hl)
        refine ⟨?_, ?_, by exact h4 ▸ hnodup, by
          show (s.putFlow j l.origin (settleTimeout (l.flow s))).chains.length = _
          rw [h1]; exact hcount.trans (congrArg _ h3.symm)⟩
        · intro l2 hl2
          show ∃ c, (s.putFlow j l.origin (settleTimeout (l.flow s))).chains[l2.origin]? = some c ∧ _
          rw [h1]
          rcases List.mem_or_eq_of_mem_set hl2 with hl2 | rfl
          · exact hloops l2 hl2
          · exact horigin
        · intro d hd
          show ∃ c, (s.putFlow j l.origin (settleTimeout (l.flow s))).chains[d.1]? = some c ∧ _
          rw [h1]
          rcases List.mem_append.mp hd with hd | hd
          · exact hcalls d hd
          · rw [List.mem_singleton.mp hd]
            exact horigin
      · cases hstep
    · cases hstep

theorem initial_consistent : System.initial.Consistent := by
  refine ⟨?_, ?_, ?_, ?_⟩ <;> simp [System.initial, Page.initial]

theorem run_consistent (es : List Event) (s s1 : System) (hrun : run es s = some s1)
    (h : s.Consistent) : s1.Consistent := by
  induction es generalizing s with
  | nil =>
    simp only [run, Option.some.injEq] at hrun
    exact hrun ▸ h
  | cons e es ih =>
    simp only [run] at hrun
    split at hrun
    · rename_i s2 hs2
      exact ih s2 hrun (step_consistent s s2 e hs2 h)
    · cases hrun

theorem loops_le_chains (s : System) (h : s.Consistent) : s.loops.length ≤ s.chains.length := by
  obtain ⟨hloops, -, hnodup, -⟩ := h
  have hsub : (s.loops.map fun l => l.origin) ⊆ List.range s.chains.length := by
    intro k hk
    obtain ⟨l, hl, rfl⟩ := List.mem_map.mp hk
    obtain ⟨c, hc, -⟩ := hloops l hl
    exact List.mem_range.mpr (List.getElem?_eq_some.mp hc).1
  have := (List.subperm_of_subset hnodup hsub).length_le
  simpa using this

theorem countP_set_add {α : Type} (p : α → Bool) (l : List α) (i : Nat) (a b : α)
    (h : l[i]? = some a) :
    (l.set i b).countP p + (if p a then 1 else 0) = l.countP p + (if p b then 1 else 0) := by
  induction l generalizing i with
  | nil => simp at h
  | cons x xs ih =>
    cases i with
    | zero =>
      simp only [List.getElem?_cons_zero, Option.some.injEq] at h
      subst h
      simp only [List.set_cons_zero, List.countP_cons]
      omega
    | succ j =>
      have := ih j (by simpa using h)
      simp only [List.set_cons_succ, List.countP_cons]
      omega

theorem settleTimeout_interval (f : Flow) :
    (settleTimeout f).ticker.interval = f.ticker.interval := by
  unfold settleTimeout
  split <;> rfl

theorem countP_set_same {α : Type} (p : α → Bool) (l : List α) (i : Nat) (a b : α)
    (h : l[i]? = some a) (hab : p a = p b) : (l.set i b).countP p = l.countP p := by
  have := countP_set_add p l i a b h
  rw [hab] at this
  omega

theorem countP_set_drop {α : Type} (p : α → Bool) (l : List α) (i : Nat) (a b : α)
    (h : l[i]? = some a) (ha : p a = true) (hb : p b = false) :
    (l.set i b).countP p + 1 = l.countP p := by
  have := countP_set_add p l i a b h
  rw [ha, hb] at this
  simpa using this

theorem countP_set_le {α : Type} (p : α → Bool) (l : List α) (i : Nat) (a b : α)
    (h : l[i]? = some a) (ha : p a = true) : (l.set i b).countP p ≤ l.countP p := by
  have := countP_set_add p l i a b h
  rw [ha] at this
  have hb : (if p b = true then 1 else 0) ≤ 1 := by split <;> omega
  simp only [if_true] at this
  omega

theorem step_busy (s s1 : System) (e : Event) (hstep : step s e = some s1)
    (hquiet : e.startsFlow s = true → s.quiet = true)
    (h : pendingChains s + activeLoops s ≤ 1) :
    pendingChains s1 + activeLoops s1 ≤ 1 := by
  cases e with
  | trigger doc =>
    simp only [step] at hstep
    split at hstep <;> cases hstep
    · rename_i p sel heq
      have hq := hquiet (by
        show (match (generateFinalPrice doc s.page).2 with
          | Completion.started _ => true
          | _ => false) = true
        rw [heq])
      simp only [System.quiet, Bool.and_eq_true, decide_eq_true_eq] at hq
      obtain ⟨hq1, hq2⟩ := hq
      have h0 : pendingChains s = List.countP (fun c : Chain => c.stage.pending) s.chains := rfl
      show List.countP (fun c : Chain => c.stage.pending) (s.chains ++ [_]) + activeLoops s ≤ 1
      rw [List.countP_append]
      have h1 : ∀ sel : List Selection, List.countP (fun c : Chain => c.stage.pending)
          [⟨sel, Stage.awaitingMultipliers⟩] = 1 := fun _ => rfl
      rw [h1]
      omega
    · exact h
    · exact h
  | multipliersArrive i settings =>
    simp only [step] at hstep
    split at hstep
    · rename_i c hc
      split at hstep
      · rename_i hst
        cases hstep
        have h1 := countP_set_same (fun c : Chain => c.stage.pending) s.chains i c
          { c with stage := Stage.awaitingResult } hc (by show c.stage.pending = _; rw [hst]; rfl)
        show List.countP _ (s.chains.set i _) + activeLoops s ≤ 1
        rw [h1]
        exact h
      · cases hstep
    · cases hstep
  | multipliersFail i =>
    simp only [step] at hstep
    split at hstep
    · rename_i c hc
      split at hstep
      · rename_i hst
        cases hstep
        have h1 := countP_set_drop (fun c : Chain => c.stage.pending) s.chains i c
          { c with stage := Stage.failed } hc (by show c.stage.pending = _; rw [hst]; rfl) rfl
        have h0 : pendingChains s = List.countP (fun c : Chain => c.stage.pending) s.chains := rfl
        show List.countP _ (s.chains.set i _) + activeLoops s ≤ 1
        omega
      · cases hstep
    · cases hstep
  | resultFails i =>
    simp only [step] at hstep
    split at hstep
    · rename_i c hc
      split at hstep
      · rename_i hst
        cases hstep
        have h1 := countP_set_drop (fun c : Chain => c.stage.pending) s.chains i c
          { c with stage := Stage.failed } hc (by show c.stage.pending = _; rw [hst]; rfl) rfl
        have h0 : pendingChains s = List.countP (fun c : Chain => c.stage.pending) s.chains := rfl
        show List.countP _ (s.chains.set i _) + activeLoops s ≤ 1
        omega
      · cases hstep
    · cases hstep
  | resultArrives i result =>
    simp only [step] at hstep
    split at hstep
    · rename_i c hc
      split at hstep
      · rename_i hst
        cases hstep
        have h1 := countP_set_drop (fun c : Chain => c.stage.pending) s.chains i c
          { c with stage := Stage.animating } hc (by show c.stage.pending = _; rw [hst]; rfl) rfl
        have h0 : pendingChains s = List.countP (fun c : Chain => c.stage.pending) s.chains := rfl
        have h2 : List.countP (fun l : Loop => l.ticker.interval)
            (s.loops ++ [Loop.mk i (onResult s.page result).ticker [] []])
              = activeLoops s + 1 := by
          rw [List.countP_append]
          rfl
        show List.countP _ (s.chains.set i _) + List.countP _ (s.loops ++ _) ≤ 1
        rw [h2]
        omega
      · cases hstep
    · cases hstep
  | tick j =>
    simp only [step] at hstep
    split at hstep
    · rename_i l hl
      split at hstep
      · rename_i hint
        cases hstep
        have h1 := countP_set_le (fun l : Loop => l.ticker.interval) s.loops j l
          { origin := l.origin, ticker := (tick (l.flow s)).ticker,
            cycled := (tick (l.flow s)).cycled, settled := (tick (l.flow s)).settled } hl hint
        have h0 : activeLoops s = List.countP (fun l : Loop => l.ticker.interval) s.loops := rfl
        show pendingChains s + List.countP _ (s.loops.set j _) ≤ 1
        omega
      · cases hstep
    · cases hstep
  | timeout j =>
    simp only [step] at hstep
    split at hstep
    · rename_i l hl
      split at hstep
      · cases hstep
        have h1 := countP_set_same (fun l : Loop => l.ticker.interval) s.loops j l
          { origin := l.origin, ticker := (settleTimeout (l.flow s)).ticker,
            cycled := (settleTimeout (l.flow s)).cycled,
            settled := (settleTimeout (l.flow s)).settled } hl
          (settleTimeout_interval (l.flow s)).symm
        show pendingChains s + List.countP _ (s.loops.set j _) ≤ 1
        rw [h1]
        exact h
      · cases hstep
    · cases hstep

theorem run_busy (es : List Event) (s s2 : System) (hrun : run es s = some s2)
    (hseq : sequential es s = true) (h : pendingChains s + activeLoops s ≤ 1) :
    pendingChains s2 + activeLoops s2 ≤ 1 := by
  induction es generalizing s with
  | nil =>
    simp only [run, Option.some.injEq] at hrun
    exact hrun ▸ h
  | cons e es ih =>
    simp only [run] at hrun
    simp only [sequential, Bool.and_eq_true, Bool.or_eq_true, Bool.not_eq_true'] at hseq
    split at hrun
    · rename_i s1 hs1
      rw [hs1] at hseq
      refine ih s1 hrun hseq.2 (step_busy s s1 e hs1 ?_ h)
      intro ht
      rcases hseq.1 with hf | hq
      · rw [ht] at hf
        cases hf
      · exact hq
    · cases hrun

theorem step_trigger_accepted (s : System) (doc : Document) :
    ∃ s1, step s (Event.trigger doc) = some s1 ∧ s1.loops = s.loops ∧
      ∀ sel, (generateFinalPrice doc s.page).2 = Completion.started sel →
        s1.chains = s.chains ++ [⟨sel, Stage.awaitingMultipliers⟩] := by
  simp only [step]
  split
  · rename_i p sel heq
    refine ⟨_, rfl, rfl, ?_⟩
    intro sel2 h2
    rw [heq] at h2
    cases h2
    rfl
  · rename_i p heq
    refine ⟨_, rfl, rfl, ?_⟩
    intro sel2 h2
    rw [heq] at h2
    cases h2
  · rename_i p err heq
    refine ⟨_, rfl, rfl, ?_⟩
    intro sel2 h2
    rw [heq] at h2
    cases h2

/-- C13 as amended: in every state reached from the loaded page by triggers, fetch
completions and timer firings, every started flow has at most one animation, so the
intervals that are set are at most as many as the flows started, one flow per
`getMultipliers` fetch issued; when every flow of the run was started in a quiet state (no
earlier flow waiting for a fetch, every interval cleared), at most one flow is waiting for
a fetch or cycling, so at most one interval is set; and a trigger is accepted in every
state, leaving the animations as they are and starting a new flow whenever the form
passes validation. -/
theorem active_loops_bounded_by_flows (es : List Event) (s : System)
    (hrun : run es System.initial = some s) :
    (s.loops.map fun l => l.origin).Nodup ∧
    activeLoops s ≤ s.loops.length ∧
    s.loops.length ≤ s.chains.length ∧
    s.chains.length = s.page.fetches.count Fetch.getMultipliers ∧
    (s.chains.length ≤ 1 → activeLoops s ≤ 1) ∧
    (sequential es System.initial = true →
      pendingChains s + activeLoops s ≤ 1 ∧ activeLoops s ≤ 1) ∧
    ∀ doc, ∃ s1, step s (Event.trigger doc) = some s1 ∧ s1.loops = s.loops ∧
      ∀ sel, (generateFinalPrice doc s.page).2 = Completion.started sel →
        s1.chains = s.chains ++ [⟨sel, Stage.awaitingMultipliers⟩] := by
  have hcons := run_consistent es System.initial s hrun initial_consistent
  have h1 : activeLoops s ≤ s.loops.length := List.countP_le_length _
  have h2 := loops_le_chains s hcons
  refine ⟨hcons.2.2.1, h1, h2, hcons.2.2.2, fun h => by omega, ?_,
    fun doc => step_trigger_accepted s doc⟩
  intro hseq
  have := run_busy es System.initial s hrun hseq (by decide)
  exact ⟨this, by omega⟩

theorem active_loops_bounded_by_flows_witness :
    run sequentialEvents System.initial = some secondCyclingSystem ∧
    sequential sequentialEvents System.initial = true ∧
    secondCyclingSystem.loops.length = 2 ∧
    ((secondCyclingSystem.loops.map fun l => l.origin).Nodup ∧
    activeLoops secondCyclingSystem ≤ secondCyclingSystem.loops.length ∧
    secondCyclingSystem.loops.length ≤ secondCyclingSystem.chains.length ∧
    secondCyclingSystem.chains.length
      = secondCyclingSystem.page.fetches.count Fetch.getMultipliers ∧
    (secondCyclingSystem.chains.length ≤ 1 → activeLoops secondCyclingSystem ≤ 1) ∧
    (sequential sequentialEvents System.initial = true →
      pendingChains secondCyclingSystem + activeLoops secondCyclingSystem ≤ 1 ∧
      activeLoops secondCyclingSystem ≤ 1) ∧
    ∀ doc, ∃ s1, step secondCyclingSystem (Event.trigger doc) = some s1 ∧
      s1.loops = secondCyclingSystem.loops ∧
      ∀ sel, (generateFinalPrice doc secondCyclingSystem.page).2 = Completion.started sel →
        s1.chains = secondCyclingSystem.chains ++ [⟨sel, Stage.awaitingMultipliers⟩]) ∧
    (pendingChains secondCyclingSystem + activeLoops secondCyclingSystem ≤ 1 ∧
      activeLoops secondCyclingSystem ≤ 1) ∧
    (∃ s1, step secondCyclingSystem (Event.trigger validDocument) = some s1 ∧
      s1.chains = secondCyclingSystem.chains ++
        [⟨[⟨JSNumber.finite 1, JSNumber.finite 2⟩, ⟨JSNumber.finite 2, JSNumber.finite 5⟩],
          Stage.awaitingMultipliers⟩]) ∧
    run firstFlowEvents System.initial = some cyclingSystem ∧
    cyclingSystem.chains.length ≤ 1 ∧ activeLoops cyclingSystem ≤ 1 :=
  have hseq : sequential sequentialEvents System.initial = true := by decide
  have hfirst : run firstFlowEvents System.initial = some cyclingSystem := by decide
  have hone : cyclingSystem.chains.length ≤ 1 := by decide
  have h := active_loops_bounded_by_flows sequentialEvents secondCyclingSystem (by decide)
  ⟨by decide, hseq, by decide, h, h.2.2.2.2.2.1 hseq,
    (h.2.2.2.2.2.2 validDocument).elim fun s1 hs1 => ⟨s1, hs1.1, hs1.2.2 _ (by decide)⟩,
    hfirst, hone,
    (active_loops_bounded_by_flows firstFlowEvents cyclingSystem hfirst).2.2.2.2.1 hone⟩

/-- The two sequential flows evaluated: two animations exist, the first with its interval
cleared and its result displayed, the second cycling, so one interval is set; a third
trigger on the valid form is accepted in that state and starts a third flow beside the
cycling one, which ends the sequential run, while a trigger on the form with nothing
checked starts no flow and leaves the run sequential. -/
theorem sequential_flows_evaluated :
    activeLoops secondCyclingSystem = 1 ∧
    secondCyclingSystem.loops.map (fun l => l.ticker.interval) = [false, true] ∧
    secondCyclingSystem.displayCalls = [(0, ⟨2, 40⟩)] ∧
    sequential (sequentialEvents ++ [Event.trigger validDocument]) System.initial = false ∧
    sequential (sequentialEvents ++ [Event.trigger emptyDocument]) System.initial = true ∧
    ∃ s1, step secondCyclingSystem (Event.trigger validDocument) = some s1 ∧
      s1.chains.map (fun c => c.stage)
        = [Stage.animating, Stage.animating, Stage.awaitingMultipliers] ∧
      activeLoops s1 = 1 := by
  refine ⟨by decide, by decide, by decide, by decide, by decide, _, rfl, by decide,
    by decide⟩

/-! ## A failed fetch -/

theorem tick_animationSection (s : Flow) :
    (tick s).page.animationSection = s.page.animationSection := by
  unfold tick settle
  dsimp only
  repeat' split
  all_goals rfl

theorem step_failed_persists (s s1 : System) (e : Event) (i : Nat)
    (hstep : step s e = some s1) (h : s.chainStage i Stage.failed) :
    s1.chainStage i Stage.failed := by
  cases e with
  | trigger doc =>
    simp only [step] at hstep
    split at hstep <;> cases hstep
    · exact chainStage_append s _ _ _ h
    · exact h
    · exact h
  | multipliersArrive k settings =>
    simp only [step] at hstep
    split at hstep
    · rename_i c hc
      split at hstep
      · rename_i hst
        cases hstep
        exact chainStage_set_of_ne s k _ c _ _ hc (by rw [hst]; decide) h
      · cases hstep
    · cases hstep
  | multipliersFail k =>
    simp only [step] at hstep
    split at hstep
    · rename_i c hc
      split at hstep
      · rename_i hst
        cases hstep
        exact chainStage_set_of_ne s k _ c _ _ hc (by rw [hst]; decide) h
      · cases hstep
    · cases hstep
  | resultArrives k result =>
    simp only [step] at hstep
    split at hstep
    · rename_i c hc
      split at hstep
      · rename_i hst
        cases hstep
        exact chainStage_set_of_ne s k _ c _ _ hc (by rw [hst]; decide) h
      · cases hstep
    · cases hstep
  | resultFails k =>
    simp only [step] at hstep
    split at hstep
    · rename_i c hc
      split at hstep
      · rename_i hst
        cases hstep
        exact chainStage_set_of_ne s k _ c _ _ hc (by rw [hst]; decide) h
      · cases hstep
    · cases hstep
  | tick j =>
    simp only [step] at hstep
    split at hstep
    · split at hstep
      · cases hstep
        exact h
      · cases hstep
    · cases hstep
  | timeout j =>
    simp only [step] at hstep
    split at hstep
    · split at hstep
      · cases hstep
        exact h
      · cases hstep
    · cases hstep

theorem step_none_of_failed (s : System) (e : Event) (i : Nat)
    (h : s.chainStage i Stage.failed) (he : e.chain? = some i) : step s e = none := by
  obtain ⟨c, hc, hst⟩ := h
  cases e with
  | trigger doc => simp [Event.chain?] at he
  | tick j => simp [Event.chain?] at he
  | timeout j => simp [Event.chain?] at he
  | multipliersArrive k settings =>
    simp only [Event.chain?, Option.some.injEq] at he
    subst he
    simp [step, hc, hst]
  | multipliersFail k =>
    simp only [Event.chain?, Option.some.injEq] at he
    subst he
    simp [step, hc, hst]
  | resultArrives k result =>
    simp only [Event.chain?, Option.some.injEq] at he
    subst he
    simp [step, hc, hst]
  | resultFails k =>
    simp only [Event.chain?, Option.some.injEq] at he
    subst he
    simp [step, hc, hst]

theorem step_keeps_hidden (s s1 : System) (e : Event) (he : e.isTrigger = false)
    (hstep : step s e = some s1) (h : s.page.animationSection = .hidden) :
    s1.page.animationSection = .hidden := by
  cases e with
  | trigger doc => simp [Event.isTrigger] at he
  | multipliersArrive k settings =>
    simp only [step] at hstep
    split at hstep
    · split at hstep
      · cases hstep
        simpa [onMultipliers, populateMultipliersListForAnimation] using h
      · cases hstep
    · cases hstep
  | multipliersFail k =>
    simp only [step] at hstep
    split at hstep
    · split at hstep
      · cases hstep
        rfl
      · cases hstep
    · cases hstep
  | resultArrives k result =>
    simp only [step] at hstep
    split at hstep
    · split at hstep
      · cases hstep
        simpa [onResult, animateToSelectedMultiplier] using h
      · cases hstep
    · cases hstep
  | resultFails k =>
    simp only [step] at hstep
    split at hstep
    · split at hstep
      · cases hstep
        rfl
      · cases hstep
    · cases hstep
  | tick j =>
    simp only [step] at hstep
    split at hstep
    · rename_i l hl
      split at hstep
      · cases hstep
        show (tick (l.flow s)).page.animationSection = .hidden
        rw [tick_animationSection]
        exact h
      · cases hstep
    · cases hstep
  | timeout j =>
    simp only [step] at hstep
    split at hstep
    · rename_i l hl
      split at hstep
      · rename_i ht
        cases hstep
        show (settleTimeout (l.flow s)).page.animationSection = .hidden
        have ht2 : (l.flow s).ticker.timeout = true := ht
        simp [settleTimeout, ht2, displayResults]
      · cases hstep
    · cases hstep

theorem run_failed_consistent (es : List Event) (s s2 : System) (i : Nat)
    (hrun : run es s = some s2) (hfailed : s.chainStage i Stage.failed)
    (hcons : s.Consistent) : s2.chainStage i Stage.failed ∧ s2.Consistent := by
  induction es generalizing s with
  | nil =>
    simp only [run, Option.some.injEq] at hrun
    subst hrun
    exact ⟨hfailed, hcons⟩
  | cons e es ih =>
    simp only [run] at hrun
    split at hrun
    · rename_i s1 hs1
      exact ih s1 hrun (step_failed_persists s s1 e i hs1 hfailed)
        (step_consistent s s1 e hs1 hcons)
    · cases hrun

theorem run_after_failure (es : List Event) (s s2 : System) (i : Nat)
    (hrun : run es s = some s2) (hfailed : s.chainStage i Stage.failed)
    (hcons : s.Consistent) (hhidden : s.page.animationSection = .hidden) :
    s2.chainStage i Stage.failed ∧ s2.Consistent ∧
    ((∀ e ∈ es, e.isTrigger = false) → s2.page.animationSection = .hidden) := by
  induction es generalizing s with
  | nil =>
    simp only [run, Option.some.injEq] at hrun
    subst hrun
    exact ⟨hfailed, hcons, fun _ => hhidden⟩
  | cons e es ih =>
    simp only [run] at hrun
    split at hrun
    · rename_i s1 hs1
      have hf1 := step_failed_persists s s1 e i hs1 hfailed
      have hc1 := step_consistent s s1 e hs1 hcons
      by_cases he : e.isTrigger = false
      · obtain ⟨h1, h2, h3⟩ := ih s1 hrun hf1 hc1 (step_keeps_hidden s s1 e he hs1 hhidden)
        exact ⟨h1, h2, fun hall => h3 (fun e2 h2 => hall e2 (List.mem_cons_of_mem _ h2))⟩
      · have hrest : ∀ s3, run es s1 = some s3 → s1.chainStage i Stage.failed →
            s1.Consistent → s3.chainStage i Stage.failed ∧ s3.Consistent := by
          intro s3 h3 hf hc
          exact run_failed_consistent es s1 s3 i h3 hf hc
        obtain ⟨h1, h2⟩ := hrest s2 hrun hf1 hc1
        exact ⟨h1, h2, fun hall => absurd (hall e (List.mem_cons_self _ _)) he⟩
    · cases hrun

theorem failure_step_effects (s s1 : System) (i : Nat)
    (hfail : step s (Event.multipliersFail i) = some s1 ∨
      step s (Event.resultFails i) = some s1) :
    s1.page = onError s.page ∧ s1.loops = s.loops ∧ s1.displayCalls = s.displayCalls ∧
    s1.uncaught = s.uncaught ∧ s1.chainStage i Stage.failed := by
  rcases hfail with hstep | hstep
  · simp only [step] at hstep
    split at hstep
    · rename_i c hc
      split at hstep
      · cases hstep
        exact ⟨rfl, rfl, rfl, rfl, _,
          List.getElem?_set_self (List.getElem?_eq_some.mp hc).1, rfl⟩
      · cases hstep
    · cases hstep
  · simp only [step] at hstep
    split at hstep
    · rename_i c hc
      split at hstep
      · cases hstep
        exact ⟨rfl, rfl, rfl, rfl, _,
          List.getElem?_set_self (List.getElem?_eq_some.mp hc).1, rfl⟩
      · cases hstep
    · cases hstep

/-- C11: in every state reached from the loaded page, when the `getMultipliers` fetch or
the `generateFinalPrices` fetch of a flow fails, the `catch` callback hides the animation
section and raises the alert; it issues no fetch, starts no animation and does not call
`displayResults`; and from then on the flow stays failed, none of its fetch events can
happen again, no animation and no call of `displayResults` ever belongs to it, and the
section stays hidden until a new flow is triggered. -/
theorem fetch_failure_aborts_flow (es0 : List Event) (s s1 : System) (i : Nat)
    (hreach : run es0 System.initial = some s)
    (hfail : step s (Event.multipliersFail i) = some s1 ∨
      step s (Event.resultFails i) = some s1) :
    FlowAborted s i s1 := by
  have hcons := run_consistent es0 System.initial s hreach initial_consistent
  have hcons1 : s1.Consistent := by
    rcases hfail with h | h
    · exact step_consistent s s1 _ h hcons
    · exact step_consistent s s1 _ h hcons
  obtain ⟨hpage, hloops, hcalls, -, hfailed⟩ := failure_step_effects s s1 i hfail
  have hhidden : s1.page.animationSection = .hidden := by rw [hpage]; rfl
  refine ⟨hhidden, by rw [hpage]; rfl, by rw [hpage]; rfl, hloops, hcalls, hfailed, ?_⟩
  intro es s2 hrun
  obtain ⟨hf2, hc2, hh2⟩ := run_after_failure es s1 s2 i hrun hfailed hcons1 hhidden
  have hnot : ¬ s2.chainStage i Stage.animating := by
    rintro ⟨c, hc, hst⟩
    obtain ⟨c2, hc2b, hst2⟩ := hf2
    rw [hc] at hc2b
    cases hc2b
    rw [hst] at hst2
    cases hst2
  refine ⟨hf2, fun e he => step_none_of_failed s2 e i hf2 he, ?_, ?_, hh2⟩
  · intro l hl horigin
    exact hnot (horigin ▸ hc2.1 l hl)
  · intro d hd horigin
    exact hnot (horigin ▸ hc2.2.1 d hd)

theorem fetch_failure_aborts_flow_witness :
    run [Event.trigger validDocument] System.initial = some awaitingSystem ∧
    (step awaitingSystem (Event.multipliersFail 0) = some abortedSystem ∨
      step awaitingSystem (Event.resultFails 0) = some abortedSystem) ∧
    FlowAborted awaitingSystem 0 abortedSystem :=
  ⟨by decide, Or.inl (by decide),
    fetch_failure_aborts_flow [Event.trigger validDocument] awaitingSystem abortedSystem 0
      (by decide) (Or.inl (by decide))⟩

/-- Both failures evaluated on one flow: after a failed `getMultipliers` fetch only that
fetch has been issued; after a failed `generateFinalPrices` fetch the two fetches have
been issued once each; in both cases the section is hidden, the alert is the only one,
there is no animation, no timer event can happen and `displayResults` was not called. -/
theorem fetch_failures_evaluated :
    (∃ s, run [Event.trigger validDocument, Event.multipliersFail 0] System.initial = some s ∧
      s.page.animationSection = .hidden ∧ s.page.alerts = [Alert.generatingFailed] ∧
      s.page.fetches = [Fetch.getMultipliers] ∧ s.loops = [] ∧ s.displayCalls = [] ∧
      step s (Event.tick 0) = none ∧ step s (Event.timeout 0) = none) ∧
    ∃ s, run [Event.trigger validDocument, Event.multipliersArrive 0 scenarioSettings,
        Event.resultFails 0] System.initial = some s ∧
      s.page.animationSection = .hidden ∧ s.page.alerts = [Alert.generatingFailed] ∧
      s.page.fetches = [Fetch.getMultipliers,
        Fetch.generateFinalPrices [⟨JSNumber.finite 1, JSNumber.finite 2⟩,
          ⟨JSNumber.finite 2, JSNumber.finite 5⟩]] ∧
      s.loops = [] ∧ s.displayCalls = [] ∧
      step s (Event.tick 0) = none ∧ step s (Event.timeout 0) = none := by
  refine ⟨⟨_, rfl, ?_⟩, ⟨_, rfl, ?_⟩⟩ <;> decide

/-! ## Rounding to the nearest double -/

theorem pow2_eq (e : Nat) : pow2 e = 2 ^ e := by
  induction e with
  | zero => rfl
  | succ e ih => rw [pow2, ih, pow_succ, Nat.mul_comm]

theorem droppedBits_spec (fuel : Nat) : ∀ n, n < 2 ^ (53 + fuel) →
    n / 2 ^ droppedBits fuel n < 2 ^ 53 ∧
    ∀ j, n / 2 ^ j < 2 ^ 53 → droppedBits fuel n ≤ j := by
  induction fuel with
  | zero =>
    intro n hn
    simp only [droppedBits, pow_zero, Nat.div_one]
    exact ⟨hn, fun j _ => Nat.zero_le j⟩
  | succ fuel ih =>
    intro n hn
    unfold droppedBits
    split
    · rename_i hlt
      simp only [pow_zero, Nat.div_one]
      exact ⟨hlt, fun j _ => Nat.zero_le j⟩
    · rename_i hge
      have hhalf : n / 2 < 2 ^ (53 + fuel) := by
        rw [Nat.div_lt_iff_lt_mul (by decide)]
        calc n < 2 ^ (53 + (fuel + 1)) := hn
          _ = 2 ^ (53 + fuel) * 2 := by rw [← Nat.add_assoc, pow_succ]
      obtain ⟨h1, h2⟩ := ih (n / 2) hhalf
      refine ⟨?_, ?_⟩
      · rw [pow_succ, Nat.mul_comm, ← Nat.div_div_eq_div_mul]
        exact h1
      · intro j hj
        cases j with
        | zero =>
          simp only [pow_zero, Nat.div_one] at hj
          exact absurd hj hge
        | succ j =>
          rw [pow_succ, Nat.mul_comm, ← Nat.div_div_eq_div_mul] at hj
          exact Nat.succ_le_succ (h2 j hj)

theorem droppedBits_self (n : Nat) :
    n / 2 ^ droppedBits n n < 2 ^ 53 ∧
    (∀ j, n / 2 ^ j < 2 ^ 53 → droppedBits n n ≤ j) ∧
    (0 < droppedBits n n → 2 ^ 52 ≤ n / 2 ^ droppedBits n n) := by
  have hfuel : n < 2 ^ (53 + n) :=
    Nat.lt_of_lt_of_le (Nat.lt_two_pow n) (Nat.pow_le_pow_right (by decide) (by omega))
  obtain ⟨h1, h2⟩ := droppedBits_spec n n hfuel
  refine ⟨h1, h2, ?_⟩
  intro hpos
  by_contra hlt
  have hlt2 : n / 2 ^ droppedBits n n < 2 ^ 52 := Nat.lt_of_not_le hlt
  obtain ⟨e, he⟩ : ∃ e, droppedBits n n = e + 1 := ⟨droppedBits n n - 1, by omega⟩
  rw [he] at hlt2
  have : n / 2 ^ e < 2 ^ 53 := by
    rw [pow_succ, ← Nat.div_div_eq_div_mul, Nat.div_lt_iff_lt_mul (by decide)] at hlt2
    calc n / 2 ^ e < 2 ^ 52 * 2 := hlt2
      _ = 2 ^ 53 := by norm_num
  have := h2 e this
  omega

theorem roundRatio_one_some (x y : Nat) (h : roundRatio x 1 = some y) :
    ∃ sig, y = sig * 2 ^ droppedBits x x ∧ x / 2 ^ droppedBits x x ≤ sig ∧
      (droppedBits x x = 0 → y = x) := by
  unfold roundRatio at h
  simp only [Nat.div_one, Nat.one_mul, pow2_eq] at h
  generalize droppedBits x x = e at h ⊢
  generalize hs : (if 2 * (x % 2 ^ e) < 2 ^ e then x / 2 ^ e
    else if 2 ^ e < 2 * (x % 2 ^ e) then x / 2 ^ e + 1
    else if x / 2 ^ e % 2 = 0 then x / 2 ^ e else x / 2 ^ e + 1) = sig at h
  split at h
  · cases h
    refine ⟨sig, rfl, ?_, ?_⟩
    · rw [← hs]
      split_ifs <;> omega
    · intro he
      subst he
      rw [← hs]
      simp [Nat.mod_one]
  · cases h

theorem roundRatio_ge (d x y : Nat) (hd : roundRatio d 1 = some d) (hx : d ≤ x)
    (hy : roundRatio x 1 = some y) : d ≤ y := by
  obtain ⟨sd, hsd, -, -⟩ := roundRatio_one_some d d hd
  obtain ⟨sx, hsx, hq, h0⟩ := roundRatio_one_some x y hy
  obtain ⟨hdlt, -, -⟩ := droppedBits_self d
  obtain ⟨-, -, hx52⟩ := droppedBits_self x
  generalize droppedBits d d = ed at hsd hdlt
  generalize droppedBits x x = ex at hsx hq h0 hx52
  by_cases hex : ex = 0
  · rw [h0 hex]
    exact hx
  · have h52 : 2 ^ 52 ≤ x / 2 ^ ex := hx52 (Nat.pos_of_ne_zero hex)
    have hbelow : x / 2 ^ ex * 2 ^ ex ≤ y := by
      rw [hsx]
      exact Nat.mul_le_mul_right _ hq
    by_cases hle : ex ≤ ed
    · have hdvd : 2 ^ ex ∣ d := by
        rw [hsd]
        exact Dvd.dvd.mul_left (pow_dvd_pow 2 hle) sd
      calc d = d / 2 ^ ex * 2 ^ ex := (Nat.div_mul_cancel hdvd).symm
        _ ≤ x / 2 ^ ex * 2 ^ ex := Nat.mul_le_mul_right _ (Nat.div_le_div_right hx)
        _ ≤ y := hbelow
    · have h1 : d < 2 ^ 53 * 2 ^ ed := by
        exact (Nat.div_lt_iff_lt_mul (Nat.two_pow_pos ed)).1 hdlt
      obtain ⟨k, hk⟩ : ∃ k, ex = ed + 1 + k := ⟨ex - ed - 1, by omega⟩
      have h2 : 2 ^ 53 * 2 ^ ed ≤ 2 ^ 52 * 2 ^ ex := by
        have hk1 : 1 ≤ 2 ^ k := Nat.one_le_two_pow
        calc 2 ^ 53 * 2 ^ ed = 2 ^ 52 * (2 ^ ed * 2) * 1 := by ring
          _ ≤ 2 ^ 52 * (2 ^ ed * 2) * 2 ^ k := Nat.mul_le_mul_left _ hk1
          _ = 2 ^ 52 * 2 ^ ex := by rw [hk, pow_add, pow_add]; ring
      calc d ≤ 2 ^ 53 * 2 ^ ed := Nat.le_of_lt h1
        _ ≤ 2 ^ 52 * 2 ^ ex := h2
        _ ≤ x / 2 ^ ex * 2 ^ ex := Nat.mul_le_mul_right _ h52
        _ ≤ y := hbelow

theorem roundRatio_of_mul (m j : Nat) (hm : m < 2 ^ 53)
    (hlim : m * 2 ^ j < doubleLimit * gridScale) :
    roundRatio (m * 2 ^ j) 1 = some (m * 2 ^ j) := by
  obtain ⟨-, hmin, -⟩ := droppedBits_self (m * 2 ^ j)
  have hej : droppedBits (m * 2 ^ j) (m * 2 ^ j) ≤ j :=
    hmin j (by rw [Nat.mul_div_cancel _ (Nat.two_pow_pos j)]; exact hm)
  unfold roundRatio
  simp only [Nat.div_one, Nat.one_mul, pow2_eq]
  generalize droppedBits (m * 2 ^ j) (m * 2 ^ j) = e at hej
  have hdvd : 2 ^ e ∣ m * 2 ^ j := Dvd.dvd.mul_left (pow_dvd_pow 2 hej) m
  have hr : m * 2 ^ j % 2 ^ e = 0 := Nat.mod_eq_zero_of_dvd hdvd
  rw [hr, if_pos (show 2 * 0 < 2 ^ e from Nat.two_pow_pos e), Nat.div_mul_cancel hdvd,
    if_pos hlim]

theorem roundRatio_representable (n d y : Nat) (h : roundRatio n d = some y) :
    roundRatio y 1 = some y := by
  obtain ⟨hq, -, -⟩ := droppedBits_self (n / d)
  unfold roundRatio at h
  simp only [pow2_eq] at h
  generalize droppedBits (n / d) (n / d) = e at h hq
  rw [Nat.div_div_eq_div_mul] at hq
  generalize hs : (if 2 * (n % (d * 2 ^ e)) < d * 2 ^ e then n / (d * 2 ^ e)
    else if d * 2 ^ e < 2 * (n % (d * 2 ^ e)) then n / (d * 2 ^ e) + 1
    else if n / (d * 2 ^ e) % 2 = 0 then n / (d * 2 ^ e) else n / (d * 2 ^ e) + 1) = sig at h
  have hsig : sig ≤ 2 ^ 53 := by
    rw [← hs]
    split_ifs <;> omega
  split at h
  · rename_i hlim
    cases h
    rcases Nat.lt_or_ge sig (2 ^ 53) with hlt | hge
    · exact roundRatio_of_mul sig e hlt hlim
    · have hsig2 : sig = 2 ^ 53 := Nat.le_antisymm hsig hge
      have hy : sig * 2 ^ e = 2 ^ 52 * 2 ^ (e + 1) := by
        rw [hsig2, pow_succ]
        ring
      rw [hy] at hlim ⊢
      exact roundRatio_of_mul (2 ^ 52) (e + 1) (by norm_num) hlim
  · cases h

theorem Double.round_representable (z : Int) : (Double.round z).representable = true := by
  unfold Double.round
  cases h : roundRatio z.natAbs 1 with
  | none => rfl
  | some y =>
    have hy := roundRatio_representable _ _ _ h
    by_cases hz : z < 0
    · simp only [hz, if_true, Double.representable, Int.natAbs_neg, Int.natAbs_ofNat]
      exact decide_eq_true hy
    · simp only [hz, if_false, Double.representable, Int.natAbs_ofNat]
      exact decide_eq_true hy

theorem Double.add_representable (a b : Double) :
    (Double.add a b).representable = true := by
  cases a <;> cases b <;> simp only [Double.add] <;>
    first
    | rfl
    | exact Double.round_representable _
    | (split <;> rfl)

theorem Double.ofDecimal_representable (mantissa : Nat) (exponent : Int) :
    (Double.ofDecimal mantissa exponent).representable = true := by
  unfold Double.ofDecimal
  dsimp only
  split
  · rename_i y hy
    have hrep : roundRatio y 1 = some y := by
      split at hy
      · exact roundRatio_representable _ _ _ hy
      · exact roundRatio_representable _ _ _ hy
    show decide (roundRatio (Int.natAbs (y : Int)) 1 = _) = true
    rw [Int.natAbs_ofNat]
    exact decide_eq_true hrep
  · rfl

/-! ## Sums of doubles -/

theorem Double.round_natCast (x : Nat) :
    Double.round (x : Int) =
      match roundRatio x 1 with
      | some n => Double.finite (n : Int)
      | none => Double.infinity false := by
  have hneg : ¬ ((x : Int) < 0) := by omega
  unfold Double.round
  rw [Int.natAbs_ofNat]
  cases roundRatio x 1 <;> simp [hneg]

theorem Double.le_round (d x : Nat) (hd : roundRatio d 1 = some d) (hx : d ≤ x) :
    Double.le (Double.finite (d : Int)) (Double.round (x : Int)) = true := by
  rw [Double.round_natCast]
  cases h : roundRatio x 1 with
  | none => rfl
  | some y =>
    simp only [Double.le, decide_eq_true_eq]
    exact_mod_cast roundRatio_ge d x y hd hx h

theorem Double.ofNat_zero : Double.ofNat 0 = Double.finite 0 := by
  simp [Double.ofNat]

theorem Double.nonneg_cases (p : Double) (h : Double.le (Double.ofNat 0) p = true) :
    (∃ n : Nat, p = Double.finite (n : Int)) ∨ p = Double.infinity false := by
  rw [Double.ofNat_zero] at h
  cases p with
  | nan => simp [Double.le] at h
  | finite z =>
    simp only [Double.le, decide_eq_true_eq] at h
    exact Or.inl ⟨z.toNat, by rw [Int.toNat_of_nonneg h]⟩
  | infinity negative =>
    cases negative with
    | false => exact Or.inr rfl
    | true => simp [Double.le] at h

theorem Double.le_add (d acc p : Double) (hd0 : Double.le (Double.ofNat 0) d = true)
    (hrep : d.representable = true) (hacc : Double.le (Double.ofNat 0) acc = true)
    (hp : Double.le (Double.ofNat 0) p = true)
    (h : Double.le d acc = true ∨ Double.le d p = true) :
    Double.le d (Double.add acc p) = true := by
  rcases Double.nonneg_cases d hd0 with ⟨dn, rfl⟩ | rfl <;>
    rcases Double.nonneg_cases acc hacc with ⟨a, rfl⟩ | rfl <;>
    rcases Double.nonneg_cases p hp with ⟨b, rfl⟩ | rfl
  · have hrep1 : roundRatio dn 1 = some dn := by
      simpa [Double.representable] using hrep
    have hle : dn ≤ a + b := by
      simp only [Double.le, decide_eq_true_eq] at h
      omega
    have := Double.le_round dn (a + b) hrep1 hle
    rw [Nat.cast_add] at this
    exact this
  · rfl
  · rfl
  · rfl
  · simp [Double.le] at h
  · rfl
  · rfl
  · rfl

theorem Double.le_foldl_add (d : Double) (hd0 : Double.le (Double.ofNat 0) d = true)
    (hrep : d.representable = true) (ps : List Double) :
    ∀ acc, (∀ p ∈ ps, Double.le (Double.ofNat 0) p = true) →
      Double.le (Double.ofNat 0) acc = true → Double.le d acc = true →
      Double.le (Double.ofNat 0) (ps.foldl (fun sum p => Double.add sum p) acc) = true ∧
      Double.le d (ps.foldl (fun sum p => Double.add sum p) acc) = true := by
  induction ps with
  | nil => exact fun acc _ h0 h => ⟨h0, h⟩
  | cons p ps ih =>
    intro acc hps hacc h
    have hp := hps p (List.mem_cons_self p ps)
    have h0 : Double.le (Double.ofNat 0) (Double.ofNat 0) = true := by
      rw [Double.ofNat_zero]
      rfl
    have hz : (Double.ofNat 0).representable = true := by
      rw [Double.ofNat_zero]
      decide
    exact ih (Double.add acc p) (fun q hq => hps q (List.mem_cons_of_mem p hq))
      (Double.le_add _ acc p h0 hz hacc hp (Or.inl hacc))
      (Double.le_add d acc p hd0 hrep hacc hp (Or.inl h))

theorem Double.mem_le_foldl_add (pr : Double) (hrep : pr.representable = true)
    (ps : List Double) :
    ∀ acc, pr ∈ ps → (∀ p ∈ ps, Double.le (Double.ofNat 0) p = true) →
      Double.le (Double.ofNat 0) acc = true →
      Double.le pr (ps.foldl (fun sum p => Double.add sum p) acc) = true := by
  induction ps with
  | nil => exact fun acc hmem => absurd hmem (List.not_mem_nil pr)
  | cons p ps ih =>
    intro acc hmem hps hacc
    have hp := hps p (List.mem_cons_self p ps)
    have hrest : ∀ q ∈ ps, Double.le (Double.ofNat 0) q = true :=
      fun q hq => hps q (List.mem_cons_of_mem p hq)
    have h0 : Double.le (Double.ofNat 0) (Double.ofNat 0) = true := by
      rw [Double.ofNat_zero]
      rfl
    have hz : (Double.ofNat 0).representable = true := by
      rw [Double.ofNat_zero]
      decide
    have hacc1 : Double.le (Double.ofNat 0) (Double.add acc p) = true :=
      Double.le_add _ acc p h0 hz hacc hp (Or.inl hacc)
    rcases List.mem_cons.mp hmem with rfl | hmem
    · have hself : Double.le pr pr = true := by
        rcases Double.nonneg_cases pr hp with ⟨n, rfl⟩ | rfl
        · simp [Double.le]
        · rfl
      exact (Double.le_foldl_add pr hp hrep ps (Double.add acc pr) hrest hacc1
        (Double.le_add pr acc pr hp hrep hacc hp (Or.inr hself))).2
    · exact ih (Double.add acc p) hmem hrest hacc1

theorem Double.foldl_add_exact (j H : Nat) (hH : H + 1 < 2 ^ 53)
    (hlim : (H + 1) * 2 ^ j < doubleLimit * gridScale) (ps : List Double) :
    ∀ K : Nat, K ≤ H → (∀ p ∈ ps, ∃ k : Nat, p = Double.finite ((k * 2 ^ j : Nat) : Int)) →
      ps.foldl (fun sum p => Double.add sum p) (Double.finite ((K * 2 ^ j : Nat) : Int))
        = Double.finite ((H * 2 ^ j : Nat) : Int) →
      ((K * 2 ^ j : Nat) : Int) + (ps.map Double.units).sum = ((H * 2 ^ j : Nat) : Int) := by
  induction ps with
  | nil =>
    intro K _ _ h
    simp only [List.foldl_nil, Double.finite.injEq] at h
    simp [h]
  | cons p ps ih =>
    intro K hK hps h
    obtain ⟨k, rfl⟩ := hps p (List.mem_cons_self p ps)
    have hrest : ∀ q ∈ ps, ∃ k : Nat, q = Double.finite ((k * 2 ^ j : Nat) : Int) :=
      fun q hq => hps q (List.mem_cons_of_mem _ hq)
    have hadd : Double.add (Double.finite ((K * 2 ^ j : Nat) : Int))
        (Double.finite ((k * 2 ^ j : Nat) : Int))
          = Double.round (((K + k) * 2 ^ j : Nat) : Int) := by
      show Double.round _ = _
      rw [← Nat.cast_add, ← Nat.add_mul]
    rw [List.foldl_cons, hadd] at h
    by_cases hsum : K + k ≤ H
    · have hexact : roundRatio ((K + k) * 2 ^ j) 1 = some ((K + k) * 2 ^ j) :=
        roundRatio_of_mul (K + k) j (by omega)
          (Nat.lt_of_le_of_lt (Nat.mul_le_mul_right _ (by omega)) hlim)
      rw [Double.round_natCast, hexact] at h
      have := ih (K + k) hsum hrest h
      simp only [List.map_cons, List.sum_cons, Double.units]
      rw [← this]
      push_cast
      ring
    · exfalso
      have hrepN : roundRatio ((H + 1) * 2 ^ j) 1 = some ((H + 1) * 2 ^ j) :=
        roundRatio_of_mul (H + 1) j hH hlim
      have hge : Double.le (Double.finite (((H + 1) * 2 ^ j : Nat) : Int))
          (Double.round (((K + k) * 2 ^ j : Nat) : Int)) = true :=
        Double.le_round _ _ hrepN (Nat.mul_le_mul_right _ (by omega))
      have hnonneg : ∀ n : Nat, Double.le (Double.ofNat 0) (Double.finite (n : Int)) = true := by
        intro n
        rw [Double.ofNat_zero]
        simp [Double.le]
      have hps0 : ∀ q ∈ ps, Double.le (Double.ofNat 0) q = true := by
        intro q hq
        obtain ⟨kq, rfl⟩ := hrest q hq
        exact hnonneg _
      have hacc0 : Double.le (Double.ofNat 0) (Double.round (((K + k) * 2 ^ j : Nat) : Int))
          = true := by
        have h00 : roundRatio 0 1 = some 0 := by decide
        have := Double.le_round 0 ((K + k) * 2 ^ j) h00 (Nat.zero_le _)
        rw [Double.ofNat_zero]
        exact_mod_cast this
      have hrepD : (Double.finite (((H + 1) * 2 ^ j : Nat) : Int)).representable = true := by
        show decide (roundRatio (Int.natAbs (((H + 1) * 2 ^ j : Nat) : Int)) 1 = _) = true
        rw [Int.natAbs_ofNat]
        exact decide_eq_true hrepN
      have := (Double.le_foldl_add _ (hnonneg _) hrepD ps _ hps0 hacc0 hge).2
      rw [h] at this
      simp only [Double.le, decide_eq_true_eq] at this
      have hlt : H * 2 ^ j < (H + 1) * 2 ^ j :=
        Nat.mul_lt_mul_of_pos_right (Nat.lt_succ_self H) (Nat.two_pow_pos j)
      omega

/-! ## `saveMultipliers` -/

theorem collectRows_ok (rows : List MultiplierRow) (i : Nat) (ms0 ps0 ms ps : List Double)
    (h : collectRows rows i ms0 ps0 = .ok (ms, ps)) :
    ms = ms0 ++ rows.map (fun row => row.multiplier) ∧
    ps = ps0 ++ rows.map (fun row => row.probability) ∧
    ∀ row ∈ rows, row.violates = false := by
  induction rows generalizing i ms0 ps0 with
  | nil =>
    simp only [collectRows, Except.ok.injEq, Prod.mk.injEq] at h
    exact ⟨by simp [h.1], by simp [h.2], by simp⟩
  | cons row rest ih =>
    unfold collectRows at h
    split at h
    · cases h
    · rename_i hm
      split at h
      · cases h
      · rename_i hp
        obtain ⟨h1, h2, h3⟩ := ih _ _ _ h
        refine ⟨by simp [h1], by simp [h2], ?_⟩
        intro r hr
        rcases List.mem_cons.mp hr with rfl | hr
        · simp only [Bool.or_eq_true, not_or, Bool.not_eq_true] at hm hp
          simp [MultiplierRow.violates, hm.1, hm.2, hp.1, hp.2]
        · exact h3 r hr

theorem Double.strictEquals_eq (a b : Double) (h : Double.strictEquals a b = true) :
    a = b := by
  cases a <;> cases b <;> simp_all [Double.strictEquals]

theorem Double.strictEquals_ofNat (k : Nat) :
    Double.strictEquals (Double.ofNat k) (Double.ofNat k) = true := by
  simp [Double.strictEquals, Double.ofNat]

theorem saveMultipliers_submitted (rows : List MultiplierRow) (ms ps : List Double)
    (h : saveMultipliers rows = SaveOutcome.submitted ms ps) :
    ms = rows.map (fun row => row.multiplier) ∧
    ps = rows.map (fun row => row.probability) ∧
    (∀ row ∈ rows, row.violates = false) ∧
    computedTotal rows = Double.ofNat 100 := by
  unfold saveMultipliers at h
  split at h
  · cases h
  · rename_i ms2 ps2 hok
    dsimp only at h
    split at h
    · cases h
    · rename_i htotal
      simp only [SaveOutcome.submitted.injEq] at h
      obtain ⟨rfl, rfl⟩ := h
      obtain ⟨h1, h2, h3⟩ := collectRows_ok rows 0 [] [] _ _ hok
      simp only [List.nil_append] at h1 h2
      subst h1 h2
      refine ⟨rfl, rfl, h3, ?_⟩
      exact Double.strictEquals_eq _ _ (by simpa using htotal)

theorem MultiplierRow.checks_of_not_violates (row : MultiplierRow)
    (h : row.violates = false) :
    Double.lt (Double.ofNat 0) row.multiplier = true ∧
    Double.le (Double.ofNat 0) row.probability = true := by
  obtain ⟨m, p⟩ := row
  simp only [MultiplierRow.violates, Bool.or_eq_false_iff] at h
  obtain ⟨⟨⟨hm1, hm2⟩, hp1⟩, hp2⟩ := h
  rw [Double.ofNat_zero] at hm2 hp2 ⊢
  constructor
  · cases m with
    | nan => simp [Double.isNaN] at hm1
    | finite a =>
      simp only [Double.le, decide_eq_false_iff_not] at hm2
      simp only [Double.lt, decide_eq_true_eq]
      omega
    | infinity negative =>
      cases negative with
      | false => rfl
      | true => simp [Double.le] at hm2
  · cases p with
    | nan => simp [Double.isNaN] at hp1
    | finite a =>
      simp only [Double.lt, decide_eq_false_iff_not] at hp2
      simp only [Double.le, decide_eq_true_eq]
      omega
    | infinity negative =>
      cases negative with
      | false => rfl
      | true => simp [Double.lt] at hp2

theorem Double.onGrid_multiple (p : Double) (h : p.onGrid = true) :
    ∃ k : Nat, p = Double.finite ((k * 2 ^ 1028 : Nat) : Int) := by
  cases p with
  | nan => cases h
  | infinity negative => cases h
  | finite z =>
    simp only [Double.onGrid, Bool.and_eq_true, decide_eq_true_eq, pow2_eq] at h
    refine ⟨z.toNat / 2 ^ 1028, ?_⟩
    rw [Nat.div_mul_cancel (Nat.dvd_of_mod_eq_zero h.2), Int.toNat_of_nonneg h.1]

set_option maxRecDepth 100000 in
theorem gridScale_bounds :
    100 * gridScale = 100 * 2 ^ 46 * pow2 1028 ∧
    (100 * 2 ^ 46 + 1) * pow2 1028 < doubleLimit * gridScale := by
  decide

theorem exactTotal_of_onGrid (rows : List MultiplierRow)
    (hgrid : ∀ row ∈ rows, row.probability.onGrid = true)
    (htotal : computedTotal rows = Double.ofNat 100) :
    exactTotal rows = ((100 * gridScale : Nat) : Int) := by
  obtain ⟨hscale, hlim⟩ := gridScale_bounds
  rw [pow2_eq] at hscale hlim
  have hps : ∀ p ∈ rows.map (fun row => row.probability),
      ∃ k : Nat, p = Double.finite ((k * 2 ^ 1028 : Nat) : Int) := by
    intro p hp
    obtain ⟨row, hrow, rfl⟩ := List.mem_map.mp hp
    exact Double.onGrid_multiple _ (hgrid row hrow)
  have hstart : Double.ofNat 0 = Double.finite ((0 * 2 ^ 1028 : Nat) : Int) := by
    rw [Double.ofNat_zero, Nat.zero_mul]
    rfl
  have hend : Double.ofNat 100 = Double.finite ((100 * 2 ^ 46 * 2 ^ 1028 : Nat) : Int) := by
    rw [Double.ofNat, hscale]
  unfold computedTotal at htotal
  rw [hstart, hend] at htotal
  have := Double.foldl_add_exact 1028 (100 * 2 ^ 46) (by norm_num) hlim _ 0 (Nat.zero_le _)
    hps htotal
  rw [Nat.zero_mul, Nat.cast_zero, Int.zero_add, List.map_map] at this
  rw [hscale]
  exact this

/-- C14: a table for which `saveMultipliers` reaches its `fetch` is the table of the
rows and has passed both row checks and the total check: it is non-empty, every
multiplier is `> 0`, every probability is `>= 0` and, being a double, `<= 100`, and the
total of the probabilities, added as doubles from `0`, is `100`; the exact total is `100`
as well when every probability is a whole multiple of `2 ^ -46`. When some row has a
multiplier that is not a number or is `<= 0`, or a probability that is not a number or is
`< 0`, or when the total so computed is not `=== 100`, the function ends with an alert
and submits nothing. -/
theorem saved_table_passed_validation (rows : List MultiplierRow) :
    (∀ ms ps, saveMultipliers rows = SaveOutcome.submitted ms ps →
      ms = rows.map (fun row => row.multiplier) ∧
      ps = rows.map (fun row => row.probability) ∧
      rows ≠ [] ∧ ms.length = rows.length ∧ ps.length = rows.length ∧
      (∀ m ∈ ms, Double.lt (Double.ofNat 0) m = true) ∧
      (∀ pr ∈ ps, Double.le (Double.ofNat 0) pr = true) ∧
      (∀ pr ∈ ps, pr.representable = true → Double.le pr (Double.ofNat 100) = true) ∧
      computedTotal rows = Double.ofNat 100 ∧
      ((∀ pr ∈ ps, pr.onGrid = true) → exactTotal rows = ((100 * gridScale : Nat) : Int))) ∧
    (((∃ row ∈ rows, row.violates = true) ∨
        Double.strictEquals (computedTotal rows) (Double.ofNat 100) = false) →
      ∃ alert, saveMultipliers rows = SaveOutcome.alerted alert) := by
  constructor
  · intro ms ps h
    obtain ⟨h1, h2, h3, h4⟩ := saveMultipliers_submitted rows ms ps h
    have hnonneg : ∀ pr ∈ ps, Double.le (Double.ofNat 0) pr = true := by
      intro pr hpr
      rw [h2] at hpr
      obtain ⟨row, hrow, rfl⟩ := List.mem_map.mp hpr
      exact (row.checks_of_not_violates (h3 row hrow)).2
    refine ⟨h1, h2, ?_, by simp [h1], by simp [h2], ?_, hnonneg, ?_, h4, ?_⟩
    · rintro rfl
      revert h4
      decide
    · intro m hm
      rw [h1] at hm
      obtain ⟨row, hrow, rfl⟩ := List.mem_map.mp hm
      exact (row.checks_of_not_violates (h3 row hrow)).1
    · intro pr hpr hrep
      have h0 : Double.le (Double.ofNat 0) (Double.ofNat 0) = true := by
        rw [Double.ofNat_zero]
        rfl
      have := Double.mem_le_foldl_add pr hrep ps (Double.ofNat 0) hpr hnonneg h0
      rw [h2] at this
      unfold computedTotal at h4
      rwa [h4] at this
    · intro hgrid
      refine exactTotal_of_onGrid rows ?_ h4
      intro row hrow
      exact hgrid _ (by rw [h2]; exact List.mem_map.mpr ⟨row, hrow, rfl⟩)
  · intro hviol
    cases hout : saveMultipliers rows with
    | alerted alert => exact ⟨alert, rfl⟩
    | submitted ms ps =>
      exfalso
      obtain ⟨-, -, h3, h4⟩ := saveMultipliers_submitted rows ms ps hout
      rcases hviol with ⟨row, hrow, hv⟩ | htotal
      · rw [h3 row hrow] at hv
        cases hv
      · rw [h4, Double.strictEquals_ofNat] at htotal
        cases htotal

set_option maxRecDepth 100000 in
theorem saved_table_passed_validation_witness :
    saveMultipliers scenarioRows = SaveOutcome.submitted
      [Double.ofNat 1, Double.ofNat 2, Double.ofNat 3]
      [Double.ofNat 50, Double.ofNat 30, Double.ofNat 20] ∧
    scenarioRows ≠ [] ∧
    (∀ m ∈ [Double.ofNat 1, Double.ofNat 2, Double.ofNat 3],
      Double.lt (Double.ofNat 0) m = true) ∧
    (∀ pr ∈ [Double.ofNat 50, Double.ofNat 30, Double.ofNat 20],
      Double.le (Double.ofNat 0) pr = true) ∧
    (∀ pr ∈ [Double.ofNat 50, Double.ofNat 30, Double.ofNat 20],
      pr.representable = true) ∧
    (∀ pr ∈ [Double.ofNat 50, Double.ofNat 30, Double.ofNat 20],
      Double.le pr (Double.ofNat 100) = true) ∧
    computedTotal scenarioRows = Double.ofNat 100 ∧
    (∀ pr ∈ [Double.ofNat 50, Double.ofNat 30, Double.ofNat 20], pr.onGrid = true) ∧
    exactTotal scenarioRows = ((100 * gridScale : Nat) : Int) ∧
    ((∃ row ∈ shortRows, row.violates = true) ∨
      Double.strictEquals (computedTotal shortRows) (Double.ofNat 100) = false) ∧
    ∃ alert, saveMultipliers shortRows = SaveOutcome.alerted alert :=
  have hsub : saveMultipliers scenarioRows = SaveOutcome.submitted
      [Double.ofNat 1, Double.ofNat 2, Double.ofNat 3]
      [Double.ofNat 50, Double.ofNat 30, Double.ofNat 20] := by decide
  have hrep : ∀ pr ∈ [Double.ofNat 50, Double.ofNat 30, Double.ofNat 20],
      pr.representable = true := by decide
  have hgrid : ∀ pr ∈ [Double.ofNat 50, Double.ofNat 30, Double.ofNat 20],
      pr.onGrid = true := by decide
  have hshort : (∃ row ∈ shortRows, row.violates = true) ∨
      Double.strictEquals (computedTotal shortRows) (Double.ofNat 100) = false :=
    Or.inr (by decide)
  have h := (saved_table_passed_validation scenarioRows).1 _ _ hsub
  ⟨hsub, h.2.2.1, h.2.2.2.2.2.1, h.2.2.2.2.2.2.1, hrep,
    fun pr hpr => h.2.2.2.2.2.2.2.1 pr hpr (hrep pr hpr), h.2.2.2.2.2.2.2.2.1, hgrid,
    h.2.2.2.2.2.2.2.2.2 hgrid, hshort, (saved_table_passed_validation shortRows).2 hshort⟩

set_option maxRecDepth 100000 in
/-- The table with probabilities `50`, `50` and `1e-15` passes every check and is
submitted: `100 + 1e-15` rounds to `100`, so the total the script computes is `=== 100`,
while the exact total of the three doubles is more than `100`. -/
theorem rounded_total_is_submitted :
    Double.ofDecimal 1 (-15) = Double.finite (2535301200456459 * pow2 973) ∧
    (∀ row ∈ roundedRows,
      row.multiplier.representable = true ∧ row.probability.representable = true) ∧
    saveMultipliers roundedRows = SaveOutcome.submitted
      [Double.ofNat 1, Double.ofNat 2, Double.ofNat 3]
      [Double.ofNat 50, Double.ofNat 50, Double.ofDecimal 1 (-15)] ∧
    computedTotal roundedRows = Double.ofNat 100 ∧
    exactTotal roundedRows = 100 * gridScale + 2535301200456459 * pow2 973 ∧
    exactTotal roundedRows ≠ 100 * gridScale := by
  decide

set_option maxRecDepth 100000 in
/-- Two tables whose probabilities sum to `100` and that the script refuses. The fields
`0.1`, `64.1` and `35.8` hold decimals that sum to `100`, and the total of their doubles
is computed as `99.99999999999999`. The doubles `100 - 2 ^ -46` and sixteen times
`2 ^ -50` sum to `100` exactly, and every one of the sixteen additions rounds back to
`100 - 2 ^ -46`. -/
theorem exact_total_is_refused :
    saveMultipliers decimalRows
      = SaveOutcome.alerted (SaveAlert.totalNot100 (Double.ofDecimal 9999999999999999 (-14))) ∧
    exactTotal smallStepRows = 100 * gridScale ∧
    (∀ row ∈ smallStepRows,
      row.multiplier.representable = true ∧ row.probability.representable = true) ∧
    saveMultipliers smallStepRows
      = SaveOutcome.alerted
          (SaveAlert.totalNot100 (Double.finite ((100 * 2 ^ 46 - 1) * pow2 1028))) := by
  decide

set_option maxRecDepth 100000 in
/-- The three alerts of `saveMultipliers`, evaluated: an empty multiplier field in row 2,
a negative probability in row 1, a total of 90, and the empty table, whose total is 0. -/
theorem saveMultipliers_rejections :
    saveMultipliers [⟨Double.ofNat 1, Double.ofNat 50⟩, ⟨Double.nan, Double.ofNat 50⟩]
      = SaveOutcome.alerted (SaveAlert.invalidMultiplier 2) ∧
    saveMultipliers [⟨Double.ofNat 1, Double.finite (-(5 * gridScale))⟩,
        ⟨Double.ofNat 2, Double.ofNat 105⟩]
      = SaveOutcome.alerted (SaveAlert.invalidProbability 1) ∧
    saveMultipliers shortRows = SaveOutcome.alerted (SaveAlert.totalNot100 (Double.ofNat 90)) ∧
    saveMultipliers [] = SaveOutcome.alerted (SaveAlert.totalNot100 (Double.ofNat 0)) := by
  decide

end UserJs
